import Mathlib

/-!
# Verification of the house layout generator

Shallow embedding of `text_to_3d/layout_generator/layout_model.py`
(class `ImprovedLayoutGenerator`) and proofs of the specification's
claims about it.

Modelling conventions:
* Python floats are modelled as exact rationals (`ℚ`).
* Grid coordinates and room ids are integers (`ℤ`); the exterior
  sentinel id is `-1` as in the source.
* The occupancy grid (`numpy` array of 0/1 flags) is modelled as the
  finite set of occupied cells; writes `grid[y:y+h, x:x+w] = 1` become
  unions with the written rectangle, and the `np.any(... != 0)` test
  becomes a non-disjointness test.  All actual writes of the source are
  performed either on rectangles that passed `_is_position_valid`
  (hence lie inside the array) or, for the corridor, at indices shown
  in bounds, so no numpy wrap-around semantics are exercised.
* Python's global `random.randint(a, b)` is modelled by an explicit
  stream of natural numbers: each call consumes one stream element `v`
  and yields `a + v % (b - a + 1)`, which lies in `[a, b]` whenever
  `a ≤ b` (every call site of the source guarantees `a ≤ b`).
  Quantifying over all streams quantifies over all possible draws.
* Python dicts returned by the code are modelled as structures; a key
  that is present only on some return paths becomes an `Option` field.
-/

/-- A random source: a stream of draws together with a cursor. -/
structure Rng where
  stream : ℕ → ℕ
  idx : ℕ

/-- `random.randint(a, b)`: consume one draw, produce a value in `[a, b]`
(for `a ≤ b`). -/
def randint (a b : ℤ) (r : Rng) : ℤ × Rng :=
  (a + (r.stream r.idx : ℤ) % (b - a + 1), ⟨r.stream, r.idx + 1⟩)

/-- Python's `str.lower()` on the room-type strings: lowercase every
character.  (Defined by a character map rather than `String.toLower`
so that concrete runs reduce inside the kernel.) -/
def pyLower (s : String) : String :=
  ⟨s.data.map Char.toLower⟩

/-- Python's `str.capitalize()`: first character uppercased, the rest
lowercased. -/
def pyCapitalize (s : String) : String :=
  match s.data with
  | [] => s
  | c :: rest => ⟨Char.toUpper c :: rest.map Char.toLower⟩

/-- An input room request: the layout generator only ever reads the
`"type"` key of the room dicts it receives. -/
structure Room where
  type : String
deriving DecidableEq, Repr

/-- The occupancy grid: the set of occupied cells `(x, y)`. -/
abbrev Grid := Finset (ℤ × ℤ)

/-- The cells of the axis-aligned rectangle with top-left corner `(x, y)`,
width `w` and height `h`: the cells written by `grid[y:y+h, x:x+w] = 1`. -/
def cellsOf (x y w h : ℤ) : Grid :=
  Finset.Ico x (x + w) ×ˢ Finset.Ico y (y + h)

/-- Mark a rectangle occupied: `grid[y:y+h, x:x+w] = 1`. -/
def mark (g : Grid) (x y w h : ℤ) : Grid :=
  g ∪ cellsOf x y w h

/-- `_is_position_valid`: inside the `grid_size × grid_size` grid and not
overlapping any occupied cell. -/
def is_position_valid (g : Grid) (gs x y w h : ℤ) : Bool :=
  if x < 0 ∨ y < 0 ∨ x + w > gs ∨ y + h > gs then false
  else if ¬ Disjoint (cellsOf x y w h) g then false
  else true

/-- `RoomSpec`: one entry of the standard-dimensions catalog. -/
structure RoomSpec where
  width : ℚ
  length : ℚ
  min_area : ℚ
deriving DecidableEq, Repr

/-- `self.standard_dimensions`: the room-type catalog (Python dict lookup,
`None` when the type is absent). -/
def standard_dimensions (t : String) : Option RoomSpec :=
  if t = "bedroom" then some ⟨3.5, 4.0, 12⟩
  else if t = "kitchen" then some ⟨3.0, 3.5, 9⟩
  else if t = "bathroom" then some ⟨2.0, 2.5, 4.5⟩
  else if t = "washroom" then some ⟨2.0, 2.5, 4.5⟩
  else if t = "living room" then some ⟨4.0, 5.0, 15⟩
  else if t = "tv lounge" then some ⟨4.0, 4.5, 15⟩
  else if t = "dining room" then some ⟨3.5, 4.0, 10⟩
  else if t = "garage" then some ⟨3.5, 5.5, 16⟩
  else if t = "car parking" then some ⟨3.5, 5.5, 16⟩
  else if t = "lobby" then some ⟨2.0, 4.0, 8⟩
  else if t = "hallway" then some ⟨1.5, 4.0, 6⟩
  else if t = "corridor" then some ⟨1.2, 3.0, 3.6⟩
  else none

/-- Generator constant: `self.wall_thickness = 0.25`. -/
def wall_thickness : ℚ := 0.25

/-- Generator constant: `self.door_width = 0.9`. -/
def door_width : ℚ := 0.9

/-- Generator constant: `self.corridor_width = 1.2`. -/
def generator_corridor_width : ℚ := 1.2

/-- The body of `while grid_width * grid_height < grid_area: grid_width += 1`,
run for at most `fuel` iterations.  The source's loop terminates exactly
when `grid_height ≥ 1` (which holds at every call site, since the height
is `max 1 _`), and then performs at most `⌈grid_area⌉` iterations, so a
fuel of `⌈grid_area⌉.toNat + 1` is never exhausted. -/
def growWidthAux : ℕ → ℚ → ℤ → ℤ → ℤ
  | 0, _, _, w => w
  | fuel + 1, area, h, w =>
      if ((w * h : ℤ) : ℚ) < area then growWidthAux fuel area h (w + 1) else w

/-- The `while grid_width * grid_height < grid_area` growth loop of
`_place_room_in_zone` / `_place_room_near_position`. -/
def growWidth (area : ℚ) (h w : ℤ) : ℤ :=
  growWidthAux (⌈area⌉.toNat + 1) area h w

/-- Footprint computation of `_place_room_in_zone` and
`_place_room_near_position` (with the min-area growth loop):
`grid_width = max(1, ceil(width/2))`, `grid_height = max(1, ceil(length/2))`,
grown until `grid_width * grid_height ≥ min_area / 4`; default `2 × 2`
when the room type is not in the catalog. -/
def zoneFootprint (room_type : String) : ℤ × ℤ :=
  match standard_dimensions room_type with
  | some std_dim =>
      let grid_area : ℚ := std_dim.min_area / 4
      let grid_width : ℤ := max 1 ⌈std_dim.width / 2⌉
      let grid_height : ℤ := max 1 ⌈std_dim.length / 2⌉
      (growWidth grid_area grid_height grid_width, grid_height)
  | none => (2, 2)

/-- Footprint computation of `_place_room_anywhere` (no growth loop). -/
def anywhereFootprint (room_type : String) : ℤ × ℤ :=
  match standard_dimensions room_type with
  | some std_dim => (max 1 ⌈std_dim.width / 2⌉, max 1 ⌈std_dim.length / 2⌉)
  | none => (2, 2)

/-- A generic randomized placement loop: up to `tries` attempts, each
drawing a candidate corner from `genXY`, accepting the first one that
passes `_is_position_valid` and marking it occupied.  Instantiated with
the corner generators of `_place_room_in_zone` (50 tries),
`_place_room_anywhere` (100 and 50 tries) and
`_place_room_near_position` (20 tries). -/
def placeLoop (tries : ℕ) (g : Grid) (gs w h : ℤ)
    (genXY : Rng → (ℤ × ℤ) × Rng) (r : Rng) :
    Option ((ℤ × ℤ) × (ℤ × ℤ)) × Grid × Rng :=
  match tries with
  | 0 => (none, g, r)
  | tries + 1 =>
      match genXY r with
      | ((x, y), r2) =>
          if is_position_valid g gs x y w h then
            (some ((x, y), (w, h)), mark g x y w h, r2)
          else
            placeLoop tries g gs w h genXY r2

/-- Candidate-corner draw of `_place_room_anywhere`:
`x = 0` if the grid is not wider than the room, else
`randint(0, grid_size - grid_width - 1)`; likewise for `y`. -/
def genAnywhereXY (gs gw gh : ℤ) (r : Rng) : (ℤ × ℤ) × Rng :=
  let px := if gs ≤ gw then ((0 : ℤ), r) else randint 0 (gs - gw - 1) r
  let py := if gs ≤ gh then ((0 : ℤ), px.2) else randint 0 (gs - gh - 1) px.2
  ((px.1, py.1), py.2)

/-- Candidate-corner draw of `_place_room_in_zone`:
`x = zone_x` when the range is empty, else
`randint(zone_x, zone_x + zone_w - grid_width)`; likewise for `y`. -/
def genZoneXY (zx zy zw zh gw gh : ℤ) (r : Rng) : (ℤ × ℤ) × Rng :=
  let px := if zx + zw - gw < zx then (zx, r) else randint zx (zx + zw - gw) r
  let py := if zy + zh - gh < zy then (zy, px.2) else randint zy (zy + zh - gh) px.2
  ((px.1, py.1), py.2)

/-- Candidate-corner draw of the random phase of `_place_room_near_position`:
`x = max(0, min(grid_size - grid_width, target_x + randint(-3, 3)))`,
likewise for `y`. -/
def genNearXY (gs gw gh tx ty : ℤ) (r : Rng) : (ℤ × ℤ) × Rng :=
  let dx := randint (-3) 3 r
  let x := max 0 (min (gs - gw) (tx + dx.1))
  let dy := randint (-3) 3 dx.2
  let y := max 0 (min (gs - gh) (ty + dy.1))
  ((x, y), dy.2)

/-- The last-resort scan of `_place_room_anywhere`: row-major search for
the first free cell (`for y in range(...): for x in range(...)`). -/
def scanFree (g : Grid) (gs : ℤ) : Option (ℤ × ℤ) :=
  (List.range gs.toNat).findSome? fun (y : ℕ) =>
    (List.range gs.toNat).findSome? fun (x : ℕ) =>
      if ((x : ℤ), (y : ℤ)) ∈ g then none else some ((x : ℤ), (y : ℤ))

/-- `_place_room_anywhere`: 100 random tries with the full footprint,
then (if both dimensions exceed 1) 50 tries with a footprint shrunk by
one in each dimension, then the row-major scan for a free `1 × 1` cell;
`(none, unchanged grid)` when the grid is entirely full. -/
def place_room_anywhere (g : Grid) (gs : ℤ) (room : Room) (r : Rng) :
    Option ((ℤ × ℤ) × (ℤ × ℤ)) × Grid × Rng :=
  let room_type := pyLower room.type
  let fp := anywhereFootprint room_type
  let grid_width := fp.1
  let grid_height := fp.2
  let p1 := placeLoop 100 g gs grid_width grid_height
    (genAnywhereXY gs grid_width grid_height) r
  match p1 with
  | (some res, g1, r1) => (some res, g1, r1)
  | (none, _, r1) =>
      let shrunk :=
        if grid_width > 1 ∧ grid_height > 1 then
          placeLoop 50 g gs (grid_width - 1) (grid_height - 1)
            (genAnywhereXY gs (grid_width - 1) (grid_height - 1)) r1
        else (none, g, r1)
      match shrunk with
      | (some res, g2, r2) => (some res, g2, r2)
      | (none, _, r2) =>
          match scanFree g gs with
          | some c => (some ((c.1, c.2), (1, 1)), mark g c.1 c.2 1 1, r2)
          | none => (none, g, r2)

/-- The 50-try random phase of `_place_room_in_zone` followed by its
fall-through call to `_place_room_anywhere`. -/
def zoneLoopThenAnywhere (g : Grid) (gs : ℤ) (room : Room)
    (gw gh zx zy zw zh : ℤ) (r : Rng) :
    Option ((ℤ × ℤ) × (ℤ × ℤ)) × Grid × Rng :=
  match placeLoop 50 g gs gw gh (genZoneXY zx zy zw zh gw gh) r with
  | (some res, g1, r1) => (some res, g1, r1)
  | (none, _, r1) => place_room_anywhere g gs room r1

/-- `_place_room_in_zone`: compute the (grown) footprint, clamp it to the
zone extent when too large (falling back to `_place_room_anywhere` when
even the clamped footprint does not fit), then 50 random tries inside
the zone, then `_place_room_anywhere`.  The `corridor_pos` parameter is
unused, as in the source. -/
def place_room_in_zone (g : Grid) (gs : ℤ) (room : Room)
    (zone_pos zone_size : ℤ × ℤ) (corridor_pos : ℤ × ℤ) (r : Rng) :
    Option ((ℤ × ℤ) × (ℤ × ℤ)) × Grid × Rng :=
  let room_type := pyLower room.type
  let fp := zoneFootprint room_type
  let grid_width := fp.1
  let grid_height := fp.2
  let zone_x := zone_pos.1
  let zone_y := zone_pos.2
  let zone_w := zone_size.1
  let zone_h := zone_size.2
  if grid_width > zone_w ∨ grid_height > zone_h then
    let gw := if grid_width > zone_w then zone_w else grid_width
    let gh := if grid_height > zone_h then zone_h else grid_height
    if gw > zone_w ∨ gh > zone_h then place_room_anywhere g gs room r
    else zoneLoopThenAnywhere g gs room gw gh zone_x zone_y zone_w zone_h r
  else zoneLoopThenAnywhere g gs room grid_width grid_height
    zone_x zone_y zone_w zone_h r

/-- The four axis-aligned neighbour attempts of `_place_room_near_position`:
for each offset, an explicit bounds check, then `_is_position_valid`. -/
def tryOffsets (g : Grid) (gs gw gh tx ty : ℤ) :
    List (ℤ × ℤ) → Option (ℤ × ℤ)
  | [] => none
  | d :: rest =>
      let x := tx + d.1 * gw
      let y := ty + d.2 * gh
      if x < 0 ∨ y < 0 ∨ x + gw > gs ∨ y + gh > gs then
        tryOffsets g gs gw gh tx ty rest
      else if is_position_valid g gs x y gw gh then some (x, y)
      else tryOffsets g gs gw gh tx ty rest

/-- `_place_room_near_position`: the four neighbour offsets, then 20
random tries within ±3 cells of the target, then `_place_room_anywhere`. -/
def place_room_near_position (g : Grid) (gs : ℤ) (room : Room)
    (target_pos : ℤ × ℤ) (r : Rng) :
    Option ((ℤ × ℤ) × (ℤ × ℤ)) × Grid × Rng :=
  let room_type := pyLower room.type
  let fp := zoneFootprint room_type
  let grid_width := fp.1
  let grid_height := fp.2
  let target_x := target_pos.1
  let target_y := target_pos.2
  match tryOffsets g gs grid_width grid_height target_x target_y
      [(1, 0), (-1, 0), (0, 1), (0, -1)] with
  | some c =>
      (some ((c.1, c.2), (grid_width, grid_height)),
        mark g c.1 c.2 grid_width grid_height, r)
  | none =>
      match placeLoop 20 g gs grid_width grid_height
          (genNearXY gs grid_width grid_height target_x target_y) r with
      | (some res, g1, r1) => (some res, g1, r1)
      | (none, _, r1) => place_room_anywhere g gs room r1

/-- `_place_corridor`: a horizontal strip of height 1 and width
`grid_size - 2` starting at `x = 1`, `y = grid_size // 2` (clamped),
marked occupied unconditionally.  Returns `((x, y), (length, width))`
and the updated grid. -/
def place_corridor (g : Grid) (gs : ℤ) : ((ℤ × ℤ) × (ℤ × ℤ)) × Grid :=
  let corridor_width : ℤ := 1
  let corridor_length : ℤ := gs - 2
  let x : ℤ := 1
  let y0 : ℤ := gs / 2
  let y : ℤ := if y0 + corridor_width > gs then gs - corridor_width - 1 else y0
  (((x, y), (corridor_length, corridor_width)),
    mark g x y corridor_length corridor_width)

/-- The zone table of `_generate_story_layout` (a dict keyed by name). -/
def zones (gs : ℤ) (name : String) : (ℤ × ℤ) × (ℤ × ℤ) :=
  if name = "public" then ((0, 0), (gs / 2, gs / 2))
  else if name = "private" then ((gs / 2, 0), (gs / 2, gs / 2))
  else if name = "service" then ((0, gs / 2), (gs / 2, gs / 2))
  else ((gs / 2, gs / 2), (gs / 2, gs / 2))

/-- A recorded placement: the room together with its grid position and
grid footprint (one entry of `room_placements`). -/
structure Plc where
  room : Room
  pos : ℤ × ℤ
  size : ℤ × ℤ
deriving DecidableEq, Repr

/-- The grid cells occupied by a recorded placement. -/
def Plc.cells (p : Plc) : Grid :=
  cellsOf p.pos.1 p.pos.2 p.size.1 p.size.2

/-- The mutable state of the placement phase of `_generate_story_layout`:
the occupancy grid, the random source, and the accumulated
`room_placements` list. -/
structure PState where
  g : Grid
  r : Rng
  plcs : List Plc

/-- Append a placement attempt's outcome to the state: a success appends
a `room_placements` entry, a failure records nothing; either way the
grid and random source returned by the attempt are kept. -/
def record (st : PState) (room : Room)
    (out : Option ((ℤ × ℤ) × (ℤ × ℤ)) × Grid × Rng) : PState :=
  match out with
  | (some res, g1, r1) => ⟨g1, r1, st.plcs ++ [⟨room, res.1, res.2⟩]⟩
  | (none, g1, r1) => ⟨g1, r1, st.plcs⟩

/-- The public-rooms loop of `_generate_story_layout`: the first half
(by index) goes to the `"public"` zone, the rest to `"other"`. -/
def placePublicRooms (gs : ℤ) (cpos : ℤ × ℤ) (n : ℕ) :
    List Room → ℕ → PState → PState
  | [], _, st => st
  | room :: rest, i, st =>
      let zname := if i < n / 2 then "public" else "other"
      let z := zones gs zname
      let out := place_room_in_zone st.g gs room z.1 z.2 cpos st.r
      placePublicRooms gs cpos n rest (i + 1) (record st room out)

/-- A loop placing each room of a list into one fixed zone: the shape of
the kitchen (`"service"`), bedroom (`"private"`) and garage (`"service"`)
loops of `_generate_story_layout`. -/
def placeRoomsInZone (gs : ℤ) (cpos : ℤ × ℤ) (zname : String) :
    List Room → PState → PState
  | [], st => st
  | room :: rest, st =>
      let z := zones gs zname
      let out := place_room_in_zone st.g gs room z.1 z.2 cpos st.r
      placeRoomsInZone gs cpos zname rest (record st room out)

/-- The private-zone fallback of the bathroom loop (lines 270–280 of the
source). -/
def bathFallback (gs : ℤ) (cpos : ℤ × ℤ) (room : Room) (st : PState) : PState :=
  let z := zones gs "private"
  record st room (place_room_in_zone st.g gs room z.1 z.2 cpos st.r)

/-- One bathroom's near-the-paired-bedroom attempt (lines 254–268): on
success the placement is appended; a `None` result falls through to the
private-zone fallback on the unchanged grid. -/
def bathStep (gs : ℤ) (cpos : ℤ × ℤ) (room : Room) (target : ℤ × ℤ)
    (st : PState) : PState :=
  match place_room_near_position st.g gs room target st.r with
  | (some res, g1, r1) => ⟨g1, r1, st.plcs ++ [⟨room, res.1, res.2⟩]⟩
  | (none, g1, r1) => bathFallback gs cpos room ⟨g1, r1, st.plcs⟩

/-- The bathroom loop of `_generate_story_layout`: the `i`-th bathroom
first tries to attach next to the placement at index
`len(public) + len(kitchen) + i` (the heuristic "paired bedroom"),
falling back to the private zone. -/
def placeBathroomRooms (gs : ℤ) (cpos : ℤ × ℤ) (nBed nPubKitchen : ℕ) :
    List Room → ℕ → PState → PState
  | [], _, st => st
  | room :: rest, i, st =>
      placeBathroomRooms gs cpos nBed nPubKitchen rest (i + 1)
        (if i < nBed ∧ st.plcs.length > nPubKitchen + i then
          if h : nPubKitchen + i < st.plcs.length then
            bathStep gs cpos room (st.plcs.get ⟨nPubKitchen + i, h⟩).pos st
          else bathFallback gs cpos room st
        else bathFallback gs cpos room st)

/-- The zone iteration of the `other_rooms` loop: try the zones in the
fixed order until one placement succeeds; the Boolean is the `placed`
flag. -/
def tryZonesList (gs : ℤ) (cpos : ℤ × ℤ) (room : Room) :
    List String → PState → PState × Bool
  | [], st => (st, false)
  | zname :: rest, st =>
      let z := zones gs zname
      match place_room_in_zone st.g gs room z.1 z.2 cpos st.r with
      | (some res, g1, r1) => (⟨g1, r1, st.plcs ++ [⟨room, res.1, res.2⟩]⟩, true)
      | (none, g1, r1) => tryZonesList gs cpos room rest ⟨g1, r1, st.plcs⟩

/-- The `other_rooms` loop of `_generate_story_layout`: all four zones,
then `_place_room_anywhere`. -/
def placeOtherRooms (gs : ℤ) (cpos : ℤ × ℤ) : List Room → PState → PState
  | [], st => st
  | room :: rest, st =>
      let tz := tryZonesList gs cpos room
        ["public", "private", "service", "other"] st
      let st1 :=
        if tz.2 then tz.1
        else record tz.1 room (place_room_anywhere tz.1.g gs room tz.1.r)
      placeOtherRooms gs cpos rest st1

/-- The room types routed to the public zone inside a story (line 190). -/
def storyPublicTypes : List String :=
  ["living room", "tv lounge", "dining room", "lobby", "entrance"]

/-- The placement phase of `_generate_story_layout` (lines 175–322): the
corridor is placed first on the fresh grid, then the six category loops
in their fixed order.  Returns the corridor's `(position, size)` and the
final placement state. -/
def genStoryPlacements (rooms : List Room) (gs : ℤ) (r : Rng) :
    ((ℤ × ℤ) × (ℤ × ℤ)) × PState :=
  let public_rooms := rooms.filter fun rm =>
    decide (pyLower rm.type ∈ storyPublicTypes)
  let kitchen_rooms := rooms.filter fun rm =>
    decide (pyLower rm.type ∈ (["kitchen"] : List String))
  let bedroom_rooms := rooms.filter fun rm => decide (pyLower rm.type = "bedroom")
  let bathroom_rooms := rooms.filter fun rm =>
    decide (pyLower rm.type ∈ (["bathroom", "washroom"] : List String))
  let garage_rooms := rooms.filter fun rm =>
    decide (pyLower rm.type ∈ (["garage", "car parking"] : List String))
  let other_rooms := rooms.filter fun rm =>
    decide (rm ∉ public_rooms ++ kitchen_rooms ++ bedroom_rooms ++
      bathroom_rooms ++ garage_rooms)
  let pc := place_corridor ∅ gs
  let corridor_pos := pc.1.1
  let corridor_size := pc.1.2
  let st0 : PState := ⟨pc.2, r, []⟩
  let st1 := placePublicRooms gs corridor_pos public_rooms.length public_rooms 0 st0
  let st2 := placeRoomsInZone gs corridor_pos "service" kitchen_rooms st1
  let st3 := placeRoomsInZone gs corridor_pos "private" bedroom_rooms st2
  let st4 := placeBathroomRooms gs corridor_pos bedroom_rooms.length
    (public_rooms.length + kitchen_rooms.length) bathroom_rooms 0 st3
  let st5 := placeRoomsInZone gs corridor_pos "service" garage_rooms st4
  let st6 := placeOtherRooms gs corridor_pos other_rooms st5
  ((corridor_pos, corridor_size), st6)

/-- A room object of the final layout (a `rooms_list` entry). -/
structure RoomOut where
  id : ℤ
  type : String
  name : String
  position : ℚ × ℚ
  size : ℚ × ℚ
  story : ℕ
deriving DecidableEq, Repr

instance : Inhabited RoomOut :=
  ⟨⟨0, "", "", (0, 0), (0, 0), 0⟩⟩

/-- A door dict.  The `type` key is present only on main-entrance doors
(connecting doors are created without it, and the source reads it with
`d.get("type")`), hence an `Option`. -/
structure Door where
  position : ℚ × ℚ
  orientation : String
  width : ℚ
  type : Option String
  connects : ℤ × ℤ
deriving DecidableEq, Repr

/-- A connection dict. -/
structure Connection where
  source : ℤ
  target : ℤ
  type : String
deriving DecidableEq, Repr

/-- The per-story layout dict returned by `_generate_story_layout`. -/
structure StoryLayout where
  rooms : List RoomOut
  connections : List Connection
  doors : List Door
deriving DecidableEq, Repr

/-- The result of `_find_door_position` (always a dict, never `None`). -/
structure DoorPos where
  position : ℚ × ℚ
  orientation : String
deriving DecidableEq, Repr

/-- `_find_door_position`: shared vertical wall, shared horizontal wall,
or a virtual door between the centers. -/
def find_door_position (room1 room2 : RoomOut) : DoorPos :=
  let x1 := room1.position.1
  let y1 := room1.position.2
  let w1 := room1.size.1
  let h1 := room1.size.2
  let x2 := room2.position.1
  let y2 := room2.position.2
  let w2 := room2.size.1
  let h2 := room2.size.2
  let r1_left := x1
  let r1_right := x1 + w1
  let r1_bottom := y1
  let r1_top := y1 + h1
  let r2_left := x2
  let r2_right := x2 + w2
  let r2_bottom := y2
  let r2_top := y2 + h2
  if (|r1_right - r2_left| < 0.1 ∨ |r2_right - r1_left| < 0.1) ∧
      ((r1_bottom ≤ r2_top ∧ r1_top ≥ r2_bottom) ∨
        (r2_bottom ≤ r1_top ∧ r2_top ≥ r1_bottom)) then
    let overlap_bottom := max r1_bottom r2_bottom
    let overlap_top := min r1_top r2_top
    let overlap_middle := (overlap_bottom + overlap_top) / 2
    if |r1_right - r2_left| < 0.1 then
      ⟨(r1_right, overlap_middle), "horizontal"⟩
    else
      ⟨(r1_left, overlap_middle), "horizontal"⟩
  else if (|r1_top - r2_bottom| < 0.1 ∨ |r2_top - r1_bottom| < 0.1) ∧
      ((r1_left ≤ r2_right ∧ r1_right ≥ r2_left) ∨
        (r2_left ≤ r1_right ∧ r2_right ≥ r1_left)) then
    let overlap_left := max r1_left r2_left
    let overlap_right := min r1_right r2_right
    let overlap_middle := (overlap_left + overlap_right) / 2
    if |r1_top - r2_bottom| < 0.1 then
      ⟨(overlap_middle, r1_top), "vertical"⟩
    else
      ⟨(overlap_middle, r1_bottom), "vertical"⟩
  else
    let c1x := x1 + w1 / 2
    let c1y := y1 + h1 / 2
    let c2x := x2 + w2 / 2
    let c2y := y2 + h2 / 2
    if |c1x - c2x| > |c1y - c2y| then
      ⟨((c1x + c2x) / 2, (c1y + c2y) / 2), "vertical"⟩
    else
      ⟨((c1x + c2x) / 2, (c1y + c2y) / 2), "horizontal"⟩

/-- Lines 345–366: turn the recorded placements into `rooms_list`
entries with consecutive ids and scaled coordinates. -/
def buildRooms (scale_x scale_y : ℚ) (story : ℕ) : List Plc → ℤ → List RoomOut
  | [], _ => []
  | p :: rest, i =>
      { id := i, type := p.room.type, name := pyCapitalize p.room.type,
        position := ((p.pos.1 : ℚ) * scale_x, (p.pos.2 : ℚ) * scale_y),
        size := ((p.size.1 : ℚ) * scale_x, (p.size.2 : ℚ) * scale_y),
        story := story } :: buildRooms scale_x scale_y story rest (i + 1)

/-- Lines 375–393: one connection and one corridor-to-room door per
non-corridor room, in list order (`room_id = start_id + i`). -/
def mkConnDoors (corridor_room : RoomOut) (corridor_id start_id : ℤ) :
    List RoomOut → ℕ → List Connection × List Door
  | [], _ => ([], [])
  | room :: rest, i =>
      let room_id := start_id + (i : ℤ)
      let tail := mkConnDoors corridor_room corridor_id start_id rest (i + 1)
      let dp := find_door_position corridor_room room
      (({ source := corridor_id, target := room_id, type := "door" } : Connection)
          :: tail.1,
        ({ position := dp.position, orientation := dp.orientation,
           width := door_width, type := none,
           connects := (corridor_id, room_id) } : Door) :: tail.2)

/-- Lines 396–411: scan `rooms_list` for the first entrance-like room. -/
def findEntrance : List RoomOut → ℕ → Option (ℕ × RoomOut)
  | [], _ => none
  | room :: rest, i =>
      if pyLower room.type ∈ (["entrance", "lobby", "main entrance"] : List String)
      then some (i, room)
      else findEntrance rest (i + 1)

/-- The main-entrance door placed at the bottom-center edge of a room. -/
def mkMainDoor (room : RoomOut) (room_id : ℤ) : Door :=
  let x := room.position.1
  let y := room.position.2
  let w := room.size.1
  { position := (x + w / 2, y), orientation := "vertical",
    width := door_width * 1.2, type := some "main_entrance",
    connects := (room_id, -1) }

/-- Lines 395–426 of `_generate_story_layout`: append the exterior
main-entrance door — at the first entrance-like room if one exists,
else at the corridor — short-circuiting once one main entrance is in
the story's doors list. -/
def addMainDoors (corridor_room : RoomOut) (start_id : ℤ)
    (rooms_list : List RoomOut) (doors : List Door) : List Door :=
  let doors1 :=
    match findEntrance rooms_list 0 with
    | some e => doors ++ [mkMainDoor e.2 (start_id + (e.1 : ℤ))]
    | none => doors
  if doors1.any fun d => d.type == some "main_entrance" then doors1
  else doors1 ++ [mkMainDoor corridor_room start_id]

/-- `_generate_story_layout`: placements, scaling, `rooms_list`,
connections and doors, entrance handling. -/
def generate_story_layout (rooms : List Room) (total_width total_length : ℚ)
    (story : ℕ) (start_id : ℤ) (gs : ℤ) (r : Rng) : StoryLayout × Rng :=
  let gp := genStoryPlacements rooms gs r
  let corridor_pos := gp.1.1
  let corridor_size := gp.1.2
  let st := gp.2
  let scale_x := total_width / (gs : ℚ)
  let scale_y := total_length / (gs : ℚ)
  let corridor_room : RoomOut :=
    { id := start_id, type := "corridor", name := "Corridor",
      position := ((corridor_pos.1 : ℚ) * scale_x, (corridor_pos.2 : ℚ) * scale_y),
      size := ((corridor_size.1 : ℚ) * scale_x, (corridor_size.2 : ℚ) * scale_y),
      story := story }
  let rooms_list := corridor_room ::
    buildRooms scale_x scale_y story st.plcs (start_id + 1)
  let cd := mkConnDoors corridor_room start_id start_id rooms_list.tail 1
  let doors2 := addMainDoors corridor_room start_id rooms_list cd.2
  ({ rooms := rooms_list, connections := cd.1, doors := doors2 }, st.r)

/-- The category routing of `_distribute_rooms_by_story` (the
`if/elif` chain on the lowered type): `0` public, `1` bedroom,
`2` bathroom/washroom, `3` other. -/
def storyCategory (t : String) : ℕ :=
  if t ∈ (["living room", "tv lounge", "kitchen", "dining room",
      "lobby", "entrance", "garage", "car parking"] : List String) then 0
  else if t = "bedroom" then 1
  else if t ∈ (["bathroom", "washroom"] : List String) then 2
  else 3

/-- `rooms_by_story`: the per-story room lists, index `s - 1` holding
story `s`. -/
abbrev Assign := List (List Room)

/-- `rooms_by_story[story].append(room)`. -/
def appendAt (a : Assign) (story : ℕ) (room : Room) : Assign :=
  a.set (story - 1) (a.getD (story - 1) [] ++ [room])

/-- `rooms_by_story[story].extend(rooms)`. -/
def appendAll (a : Assign) (story : ℕ) : List Room → Assign
  | [] => a
  | room :: rest => appendAll (appendAt a story room) story rest

/-- `for _ in range(n): if xs: rooms_by_story[story].append(xs.pop(0))`. -/
def moveN : ℕ → Assign → ℕ → List Room → Assign × List Room
  | 0, a, _, xs => (a, xs)
  | n + 1, a, story, xs =>
      match xs with
      | [] => (a, [])
      | x :: rest => moveN n (appendAt a story x) story rest

/-- The per-upper-story distribution loop (lines 139–148): each story
takes `min(bedrooms_per_floor, len(bedrooms))` bedrooms and
`min(bathrooms_per_floor, len(bathrooms))` bathrooms. -/
def distLoop : ℕ → ℕ → Assign → List Room → List Room → ℕ → ℕ →
    Assign × List Room × List Room
  | 0, _, a, beds, baths, _, _ => (a, beds, baths)
  | n + 1, story, a, beds, baths, bpf, baf =>
      let mb := moveN (min bpf beds.length) a story beds
      let mc := moveN (min baf baths.length) mb.1 story baths
      distLoop n (story + 1) mc.1 mb.2 mc.2 bpf baf

/-- The remainder loop (lines 150–158): each upper story takes one more
bedroom (if any remain) and one more bathroom (if any remain); the
`while ...: ...; break` construct runs its body at most once. -/
def remLoop : ℕ → ℕ → Assign → List Room → List Room →
    Assign × List Room × List Room
  | 0, _, a, beds, baths => (a, beds, baths)
  | n + 1, story, a, beds, baths =>
      let sb : Assign × List Room :=
        match beds with
        | [] => (a, [])
        | b :: rest => (appendAt a story b, rest)
      let sc : Assign × List Room :=
        match baths with
        | [] => (sb.1, [])
        | c :: rest => (appendAt sb.1 story c, rest)
      remLoop n (story + 1) sc.1 sb.2 sc.2

/-- `min(range(1, stories + 1), key=lambda s: len(rooms_by_story[s]))`:
the first story with the fewest assigned rooms. -/
def minStory (a : Assign) (stories : ℕ) : ℕ :=
  (List.range' 2 (stories - 1)).foldl
    (fun best s =>
      if (a.getD (s - 1) []).length < (a.getD (best - 1) []).length then s
      else best) 1

/-- Lines 160–165: greedy load-balancing of the `other` rooms. -/
def addOthers (stories : ℕ) : List Room → Assign → Assign
  | [], a => a
  | room :: rest, a => addOthers stories rest (appendAt a (minStory a stories) room)

/-- Lines 167–171: any story left empty receives a synthetic hallway. -/
def padAssign (a : Assign) : Assign :=
  a.map fun l => if l = [] then [⟨"hallway"⟩] else l

/-- Lines 132–136: when there are many bedrooms, pull one bedroom (and
one bathroom, if any) back to floor 1 before distributing the rest. -/
def pullBack (a : Assign) (bedrooms bathrooms : List Room) (stories : ℕ) :
    Assign × List Room × List Room :=
  if bedrooms.length > 2 * (stories - 1) then
    match bedrooms with
    | [] => (a, [], bathrooms)
    | b :: bs =>
        match bathrooms with
        | [] => (appendAt a 1 b, bs, [])
        | c :: cs => (appendAt (appendAt a 1 b) 1 c, bs, cs)
  else (a, bedrooms, bathrooms)

/-- `_distribute_rooms_by_story`. -/
def distribute_rooms_by_story (rooms : List Room) (stories : ℕ) : Assign :=
  let public_rooms := rooms.filter fun r => storyCategory (pyLower r.type) == 0
  let bedrooms := rooms.filter fun r => storyCategory (pyLower r.type) == 1
  let bathrooms := rooms.filter fun r => storyCategory (pyLower r.type) == 2
  let other_rooms := rooms.filter fun r => storyCategory (pyLower r.type) == 3
  let a0 : Assign := List.replicate stories []
  let a1 := appendAll a0 1 public_rooms
  if stories = 1 then
    padAssign (appendAll (appendAll (appendAll a1 1 bedrooms) 1 bathrooms)
      1 other_rooms)
  else
    let bedrooms_per_floor := max 1 (bedrooms.length / (stories - 1))
    let bathrooms_per_floor := max 1 (bathrooms.length / (stories - 1))
    let pb := pullBack a1 bedrooms bathrooms stories
    let d1 := distLoop (stories - 1) 2 pb.1 pb.2.1 pb.2.2
      bedrooms_per_floor bathrooms_per_floor
    let d2 := remLoop (stories - 1) 2 d1.1 d1.2.1 d1.2.2
    padAssign (addOthers stories other_rooms d2.1)

/-- The `plot_size` dict: every key is optional. -/
structure PlotSize where
  width_meters : Option ℚ
  length_meters : Option ℚ
  marla : Option ℚ
  kanal : Option ℚ
deriving DecidableEq, Repr

/-- The dict returned by `generate_layout`.  The `stories` and
`plot_size` keys are present only on the non-empty-input path, hence
`Option` fields; the three list keys are present on both paths. -/
structure Layout where
  rooms : List RoomOut
  connections : List Connection
  doors : List Door
  stories : Option ℕ
  plot_size : Option PlotSize
deriving DecidableEq, Repr

/-- Python `int()` truncation toward zero. -/
def trunc (q : ℚ) : ℤ :=
  if 0 ≤ q then ⌊q⌋ else ⌈q⌉

/-- Lines 47–53: plot dimensions, defaulting to `15 × 15` meters. -/
def plotDims (plot_size : PlotSize) : ℚ × ℚ :=
  match plot_size.width_meters, plot_size.length_meters with
  | some w, some l => (w, l)
  | _, _ => (15.0, 15.0)

/-- Line 57: `grid_size = max(5, int(min(total_width, total_length) / 3))`. -/
def gridSizeOf (total_width total_length : ℚ) : ℤ :=
  max 5 (trunc (min total_width total_length / 3))

/-- The per-story loop of `generate_layout` (lines 68–84): stories with
no assigned rooms are skipped, `room_id` advances by the number of rooms
each story produced. -/
def genStoriesAux (byStory : Assign) (tw tl : ℚ) (gs : ℤ) :
    ℕ → ℕ → ℤ → Rng → List StoryLayout × Rng
  | 0, _, _, r => ([], r)
  | n + 1, story, room_id, r =>
      let story_rooms := byStory.getD (story - 1) []
      if story_rooms = [] then
        genStoriesAux byStory tw tl gs n (story + 1) room_id r
      else
        let sl := generate_story_layout story_rooms tw tl story room_id gs r
        let rest := genStoriesAux byStory tw tl gs n (story + 1)
          (room_id + (sl.1.rooms.length : ℤ)) sl.2
        (sl.1 :: rest.1, rest.2)

/-- The list of per-story layouts produced by `generate_layout` for a
non-empty input. -/
def storyLayoutsOf (rooms : List Room) (plot_size : PlotSize) (stories : ℕ)
    (r : Rng) : List StoryLayout :=
  let dims := plotDims plot_size
  let gs := gridSizeOf dims.1 dims.2
  let byStory := distribute_rooms_by_story rooms stories
  (genStoriesAux byStory dims.1 dims.2 gs stories 1 0 r).1

/-- `generate_layout`: the early return for an empty room list (only the
three list keys), otherwise the accumulated multi-story layout with all
five keys. -/
def generate_layout (rooms : List Room) (plot_size : PlotSize) (stories : ℕ)
    (r : Rng) : Layout :=
  if rooms = [] then
    { rooms := [], connections := [], doors := [],
      stories := none, plot_size := none }
  else
    let sls := storyLayoutsOf rooms plot_size stories r
    { rooms := (sls.map (·.rooms)).flatten,
      connections := (sls.map (·.connections)).flatten,
      doors := (sls.map (·.doors)).flatten,
      stories := some stories, plot_size := some plot_size }

/-! ## Concrete instances used by witnesses and counterexamples -/

/-- The all-zeros draw stream (`randint` always returns its lower bound). -/
def rng0 : Rng := ⟨fun _ => 0, 0⟩

/-- A square 15 m × 15 m plot. -/
def ps15 : PlotSize := ⟨some 15, some 15, none, none⟩

/-- A non-square 15 m × 9 m plot. -/
def ps15x9 : PlotSize := ⟨some 15, some 9, none, none⟩

/-! ## Theorems

Batteries marks the `Rat` arithmetic operations `@[irreducible]`; the
concrete evaluations below need them to unfold. -/

attribute [local semireducible] Rat.ofScientific Rat.mul Rat.inv Rat.add Rat.sub

/-- C5: for the input 2 bedrooms, 1 bathroom, 1 kitchen, 1 living room and
`stories = 2`, the story distributor assigns floor 1 exactly
{kitchen, living room} and floor 2 exactly {bedroom, bedroom, bathroom};
the distributor takes no random source, so the result is deterministic. -/
theorem C5_story_distribution :
    distribute_rooms_by_story
      [⟨"bedroom"⟩, ⟨"bedroom"⟩, ⟨"bathroom"⟩, ⟨"kitchen"⟩, ⟨"living room"⟩] 2 =
    [[⟨"kitchen"⟩, ⟨"living room"⟩],
      [⟨"bedroom"⟩, ⟨"bedroom"⟩, ⟨"bathroom"⟩]] := by
  decide

/-- The growth rule as the specification words it: increment the larger
of the two dimensions, one cell at a time, until the footprint area
reaches `min_area / 4`.  (Bounded fuel as for `growWidthAux`.) -/
def growLargerAux : ℕ → ℚ → ℤ → ℤ → ℤ × ℤ
  | 0, _, w, h => (w, h)
  | fuel + 1, area, w, h =>
      if ((w * h : ℤ) : ℚ) < area then
        if h > w then growLargerAux fuel area w (h + 1)
        else growLargerAux fuel area (w + 1) h
      else (w, h)

/-- The footprint as claimed by the specification: `⌈width / 2⌉` by
`⌈length / 2⌉` cells, grown by incrementing the larger dimension until
the area reaches `min_area / 4`; `2 × 2` for types absent from the
catalog. -/
def specFootprint (room_type : String) : ℤ × ℤ :=
  match standard_dimensions room_type with
  | some std_dim =>
      growLargerAux (⌈std_dim.min_area / 4⌉.toNat + 1) (std_dim.min_area / 4)
        ⌈std_dim.width / 2⌉ ⌈std_dim.length / 2⌉
  | none => (2, 2)

/-- C6: for every room type, the footprint computed by the source
(`zoneFootprint`, which grows by incrementing the width) agrees with the
specification's description (`specFootprint`, which grows by
incrementing the larger dimension): on every catalog entry the initial
footprint already satisfies the area bound, so no growth occurs, and
absent types yield `2 × 2`. -/
theorem C6_footprint (t : String) : zoneFootprint t = specFootprint t := by
  by_cases h1 : t = "bedroom"
  · subst h1; decide
  by_cases h2 : t = "kitchen"
  · subst h2; decide
  by_cases h3 : t = "bathroom"
  · subst h3; decide
  by_cases h4 : t = "washroom"
  · subst h4; decide
  by_cases h5 : t = "living room"
  · subst h5; decide
  by_cases h6 : t = "tv lounge"
  · subst h6; decide
  by_cases h7 : t = "dining room"
  · subst h7; decide
  by_cases h8 : t = "garage"
  · subst h8; decide
  by_cases h9 : t = "car parking"
  · subst h9; decide
  by_cases h10 : t = "lobby"
  · subst h10; decide
  by_cases h11 : t = "hallway"
  · subst h11; decide
  by_cases h12 : t = "corridor"
  · subst h12; decide
  have hnone : standard_dimensions t = none := by
    simp [standard_dimensions, h1, h2, h3, h4, h5, h6, h7, h8, h9, h10, h11, h12]
  simp [zoneFootprint, specFootprint, hnone]

/-- C8 counterexample: for the empty room list the early return of
`generate_layout` carries only the `rooms`, `connections` and `doors`
keys — the `stories` and `plot_size` keys are absent, contradicting the
claim that all five contract fields are present for every input. -/
theorem C8_counterexample :
    (generate_layout [] ps15 1 rng0).stories = none ∧
    (generate_layout [] ps15 1 rng0).plot_size = none := by
  decide

/-- C8 (amended): for every non-empty input room list the object
returned by `generate_layout` carries all five contract fields; in
particular `stories` and `plot_size` are present and hold the inputs. -/
theorem C8_fields (rooms : List Room) (ps : PlotSize) (n : ℕ) (r : Rng)
    (h : rooms ≠ []) :
    (generate_layout rooms ps n r).stories = some n ∧
    (generate_layout rooms ps n r).plot_size = some ps := by
  simp [generate_layout, h]

/-- Witness for `C8_fields` at a concrete input. -/
theorem C8_fields_witness :
    ([(⟨"bedroom"⟩ : Room)] ≠ []) ∧
    ((generate_layout [⟨"bedroom"⟩] ps15 1 rng0).stories = some 1 ∧
      (generate_layout [⟨"bedroom"⟩] ps15 1 rng0).plot_size = some ps15) :=
  ⟨by decide, C8_fields [⟨"bedroom"⟩] ps15 1 rng0 (by decide)⟩

/-- C1 counterexample: with a single requested bedroom and two stories,
each story's `_generate_story_layout` call independently adds a
main-entrance door, so the finished layout has two doors of type
`"main_entrance"`, not one: the short-circuit is per floor, not global. -/
theorem C1_counterexample :
    ((generate_layout [⟨"bedroom"⟩] ps15 2 rng0).doors.countP
      (fun d => d.type == some "main_entrance")) = 2 := by
  decide

/-- C4 counterexample: an input room of type `"corridor"` is placed like
any other room, so its floor ends up with two rooms of type
`"corridor"` (the spine plus the requested room) — here a single-story
layout whose rooms all belong to floor 1. -/
theorem C4_counterexample :
    ((generate_layout [⟨"corridor"⟩] ps15 1 rng0).rooms.countP
      (fun rm => rm.type == "corridor")) = 2 ∧
    ((generate_layout [⟨"corridor"⟩] ps15 1 rng0).rooms.all
      (fun rm => rm.story == 1)) = true := by
  decide

/-- C7 counterexample: on a 15 m × 9 m plot (grid dimension 5) the
corridor is placed at grid position `(1, 2)`, but its final
`y`-coordinate is `2 · (9/5) = 18/5`, not `2 · (15/5) = 6` as the claim
(which scales both axes by plot width) predicts. -/
theorem C7_counterexample :
    plotDims ps15x9 = (15, 9) ∧
    gridSizeOf 15 9 = 5 ∧
    (genStoryPlacements [⟨"bedroom"⟩] 5 rng0).1 = ((1, 2), (3, 1)) ∧
    ((generate_layout [⟨"bedroom"⟩] ps15x9 1 rng0).rooms.getD 0 default).position
      = (3, 18 / 5) ∧
    ¬ ((18 : ℚ) / 5 = 2 * 15 / 5) := by
  decide

instance : Inhabited Plc := ⟨⟨⟨""⟩, (0, 0), (0, 0)⟩⟩

/-- The `j`-th entry built by `buildRooms` is the `j`-th placement,
scaled componentwise and given id `i + j`. -/
theorem buildRooms_getD (sx sy : ℚ) (st : ℕ) :
    ∀ (plcs : List Plc) (i : ℤ) (j : ℕ), j < plcs.length →
    (buildRooms sx sy st plcs i).getD j default =
      { id := i + (j : ℤ),
        type := (plcs.getD j default).room.type,
        name := pyCapitalize (plcs.getD j default).room.type,
        position := (((plcs.getD j default).pos.1 : ℚ) * sx,
          ((plcs.getD j default).pos.2 : ℚ) * sy),
        size := (((plcs.getD j default).size.1 : ℚ) * sx,
          ((plcs.getD j default).size.2 : ℚ) * sy),
        story := st } := by
  intro plcs
  induction plcs with
  | nil => intro i j hj; simp at hj
  | cons p rest ih =>
      intro i j hj
      cases j with
      | zero => simp [buildRooms]
      | succ j =>
          have hj' : j < rest.length := by simpa using hj
          simp only [buildRooms, List.getD_cons_succ]
          rw [ih (i + 1) j hj']
          have : i + 1 + (j : ℤ) = i + ((j : ℕ) + 1 : ℕ) := by push_cast; ring
          simp [this]

/-- The rooms list of a story layout is the corridor room followed by
the scaled placements. -/
theorem generate_story_layout_rooms (rooms : List Room) (tw tl : ℚ)
    (story : ℕ) (start gs : ℤ) (r : Rng) :
    (generate_story_layout rooms tw tl story start gs r).1.rooms =
      { id := start, type := "corridor", name := "Corridor",
        position := (((genStoryPlacements rooms gs r).1.1.1 : ℚ) * (tw / (gs : ℚ)),
          ((genStoryPlacements rooms gs r).1.1.2 : ℚ) * (tl / (gs : ℚ))),
        size := (((genStoryPlacements rooms gs r).1.2.1 : ℚ) * (tw / (gs : ℚ)),
          ((genStoryPlacements rooms gs r).1.2.2 : ℚ) * (tl / (gs : ℚ))),
        story := story } ::
      buildRooms (tw / (gs : ℚ)) (tl / (gs : ℚ)) story
        (genStoryPlacements rooms gs r).2.plcs (start + 1) := by
  rfl

/-- C7 (amended): every room of a story layout generated with plot width
`tw`, plot length `tl` and grid dimension `gs` appears at exactly its
grid position and footprint scaled by `tw / gs` in `x` and by `tl / gs`
in `y` — a single exact linear map with no rounding, but with the two
axes scaled by width and length respectively. -/
theorem C7_scaling (rooms : List Room) (tw tl : ℚ) (story : ℕ)
    (start gs : ℤ) (r : Rng) (j : ℕ)
    (hj : j < (genStoryPlacements rooms gs r).2.plcs.length) :
    ((generate_story_layout rooms tw tl story start gs r).1.rooms.getD 0
        default).position
      = (((genStoryPlacements rooms gs r).1.1.1 : ℚ) * (tw / (gs : ℚ)),
        ((genStoryPlacements rooms gs r).1.1.2 : ℚ) * (tl / (gs : ℚ))) ∧
    ((generate_story_layout rooms tw tl story start gs r).1.rooms.getD (j + 1)
        default).position
      = ((((genStoryPlacements rooms gs r).2.plcs.getD j default).pos.1 : ℚ)
          * (tw / (gs : ℚ)),
        (((genStoryPlacements rooms gs r).2.plcs.getD j default).pos.2 : ℚ)
          * (tl / (gs : ℚ))) ∧
    ((generate_story_layout rooms tw tl story start gs r).1.rooms.getD (j + 1)
        default).size
      = ((((genStoryPlacements rooms gs r).2.plcs.getD j default).size.1 : ℚ)
          * (tw / (gs : ℚ)),
        (((genStoryPlacements rooms gs r).2.plcs.getD j default).size.2 : ℚ)
          * (tl / (gs : ℚ))) := by
  rw [generate_story_layout_rooms]
  refine ⟨rfl, ?_, ?_⟩ <;>
  · rw [List.getD_cons_succ,
      buildRooms_getD (tw / (gs : ℚ)) (tl / (gs : ℚ)) story _ (start + 1) j hj]

/-- Witness for `C7_scaling` at a concrete input: the bedroom placed at
grid `(2, 0)` with footprint `(2, 2)` on the 15 × 9 plot lands at
`(6, 0)` with size `(6, 18/5)`. -/
theorem C7_scaling_witness :
    (0 < (genStoryPlacements [⟨"bedroom"⟩] 5 rng0).2.plcs.length) ∧
    ((generate_story_layout [⟨"bedroom"⟩] 15 9 1 0 5 rng0).1.rooms.getD 1
        default).position
      = ((((genStoryPlacements [⟨"bedroom"⟩] 5 rng0).2.plcs.getD 0
          default).pos.1 : ℚ) * (15 / (5 : ℚ)),
        (((genStoryPlacements [⟨"bedroom"⟩] 5 rng0).2.plcs.getD 0
          default).pos.2 : ℚ) * (9 / (5 : ℚ))) :=
  ⟨by decide, (C7_scaling [⟨"bedroom"⟩] 15 9 1 0 5 rng0 0 (by decide)).2.1⟩

/-- Membership in a rectangle of cells. -/
theorem mem_cellsOf (a : ℤ × ℤ) (x y w h : ℤ) :
    a ∈ cellsOf x y w h ↔ (x ≤ a.1 ∧ a.1 < x + w) ∧ (y ≤ a.2 ∧ a.2 < y + h) := by
  cases a with
  | mk a1 a2 => simp [cellsOf, Finset.mem_product]

/-- A `1 × 1` rectangle is a single cell. -/
theorem cellsOf_one_one (x y : ℤ) : cellsOf x y 1 1 = {(x, y)} := by
  ext a
  rw [mem_cellsOf, Finset.mem_singleton]
  constructor
  · intro h
    have h1 : a.1 = x := by omega
    have h2 : a.2 = y := by omega
    cases a
    simp_all
  · intro h
    subst h
    omega

/-- What a passed validity check guarantees. -/
theorem is_position_valid_spec (g : Grid) (gs x y w h : ℤ)
    (hv : is_position_valid g gs x y w h = true) :
    0 ≤ x ∧ 0 ≤ y ∧ x + w ≤ gs ∧ y + h ≤ gs ∧ Disjoint (cellsOf x y w h) g := by
  unfold is_position_valid at hv
  split at hv
  · exact absurd hv (by simp)
  · split at hv
    · exact absurd hv (by simp)
    · rename_i hb hd
      push_neg at hb
      refine ⟨by omega, by omega, by omega, by omega, not_not.mp hd⟩

/-- The guarantees every placement primitive provides: on failure the
grid is returned unchanged; on success the accepted rectangle is
disjoint from the incoming grid, lies within the `gs × gs` bounds, and
the returned grid is the incoming grid with exactly that rectangle
marked. -/
def PrimOK (g : Grid) (gs : ℤ)
    (out : Option ((ℤ × ℤ) × (ℤ × ℤ)) × Grid × Rng) : Prop :=
  (out.1 = none → out.2.1 = g) ∧
  ∀ xy wh, out.1 = some (xy, wh) →
    0 ≤ xy.1 ∧ 0 ≤ xy.2 ∧ xy.1 + wh.1 ≤ gs ∧ xy.2 + wh.2 ≤ gs ∧
    Disjoint (cellsOf xy.1 xy.2 wh.1 wh.2) g ∧
    out.2.1 = mark g xy.1 xy.2 wh.1 wh.2

/-- The generic retry loop satisfies the primitive contract. -/
theorem placeLoop_ok (tries : ℕ) (g : Grid) (gs w h : ℤ)
    (genXY : Rng → (ℤ × ℤ) × Rng) (r : Rng) :
    PrimOK g gs (placeLoop tries g gs w h genXY r) := by
  induction tries generalizing r with
  | zero => exact ⟨fun _ => rfl, fun xy wh hxy => by simp [placeLoop] at hxy⟩
  | succ n ih =>
      unfold placeLoop
      rcases hp : genXY r with ⟨⟨x, y⟩, r2⟩
      by_cases hv : is_position_valid g gs x y w h
      · simp only [hp, hv, if_true]
        refine ⟨fun hc => by simp_all, ?_⟩
        intro xy wh hxy
        simp only [Prod.mk.injEq, Option.some.injEq] at hxy
        obtain ⟨rfl, rfl⟩ := hxy
        obtain ⟨b1, b2, b3, b4, b5⟩ := is_position_valid_spec g gs _ _ w h hv
        exact ⟨b1, b2, b3, b4, b5, rfl⟩
      · simp only [hp, hv, if_false, Bool.false_eq_true]
        exact ih r2

/-- A successful last-resort scan yields a free in-bounds cell. -/
theorem scanFree_some (g : Grid) (gs : ℤ) (c : ℤ × ℤ)
    (h : scanFree g gs = some c) :
    c ∉ g ∧ 0 ≤ c.1 ∧ c.1 < gs ∧ 0 ≤ c.2 ∧ c.2 < gs := by
  unfold scanFree at h
  obtain ⟨y, hy, hy2⟩ := List.exists_of_findSome?_eq_some h
  obtain ⟨x, hx, hx2⟩ := List.exists_of_findSome?_eq_some hy2
  rw [List.mem_range] at hy hx
  split at hx2
  · simp at hx2
  · rename_i hmem
    obtain rfl : ((x : ℤ), (y : ℤ)) = c := by simpa using hx2
    refine ⟨hmem, by positivity, ?_, by positivity, ?_⟩ <;> omega

/-- A failed last-resort scan means every in-bounds cell is occupied. -/
theorem scanFree_none (g : Grid) (gs : ℤ) (h : scanFree g gs = none) :
    ∀ x y : ℤ, 0 ≤ x → x < gs → 0 ≤ y → y < gs → (x, y) ∈ g := by
  intro x y hx hx' hy hy'
  unfold scanFree at h
  rw [List.findSome?_eq_none] at h
  have hy0 := h y.toNat (by rw [List.mem_range]; omega)
  rw [List.findSome?_eq_none] at hy0
  have hx0 := hy0 x.toNat (by rw [List.mem_range]; omega)
  have hxx : ((x.toNat : ℤ), (y.toNat : ℤ)) = (x, y) := by
    have : (x.toNat : ℤ) = x := by omega
    have : (y.toNat : ℤ) = y := by omega
    simp_all
  split at hx0
  · rename_i hmem
    rw [hxx] at hmem
    exact hmem
  · simp at hx0

/-- Every in-bounds cell occupied implies the scan fails. -/
theorem scanFree_none_of_full (g : Grid) (gs : ℤ)
    (hfull : ∀ x y : ℤ, 0 ≤ x → x < gs → 0 ≤ y → y < gs → (x, y) ∈ g) :
    scanFree g gs = none := by
  unfold scanFree
  rw [List.findSome?_eq_none]
  intro y hy
  rw [List.mem_range] at hy
  rw [List.findSome?_eq_none]
  intro x hx
  rw [List.mem_range] at hx
  have : ((x : ℤ), (y : ℤ)) ∈ g :=
    hfull _ _ (by positivity) (by omega) (by positivity) (by omega)
  simp [this]

/-- With a footprint of positive extent on a fully occupied grid, no
position passes the validity check. -/
theorem valid_false_of_full (g : Grid) (gs x y w h : ℤ)
    (hw : 1 ≤ w) (hh : 1 ≤ h)
    (hfull : ∀ a b : ℤ, 0 ≤ a → a < gs → 0 ≤ b → b < gs → (a, b) ∈ g) :
    is_position_valid g gs x y w h = false := by
  unfold is_position_valid
  split
  · rfl
  · rename_i hb
    push_neg at hb
    have hmem : (x, y) ∈ cellsOf x y w h := by
      rw [mem_cellsOf]
      constructor <;> constructor <;> omega
    have hging : (x, y) ∈ g := hfull x y (by omega) (by omega) (by omega) (by omega)
    have : ¬ Disjoint (cellsOf x y w h) g := by
      rw [Finset.not_disjoint_iff]
      exact ⟨(x, y), hmem, hging⟩
    simp [this]

/-- When no position is ever valid, the retry loop fails and leaves the
grid unchanged. -/
theorem placeLoop_none_of_invalid (tries : ℕ) (g : Grid) (gs w h : ℤ)
    (genXY : Rng → (ℤ × ℤ) × Rng) (r : Rng)
    (hall : ∀ x y, is_position_valid g gs x y w h = false) :
    (placeLoop tries g gs w h genXY r).1 = none ∧
    (placeLoop tries g gs w h genXY r).2.1 = g := by
  induction tries generalizing r with
  | zero => exact ⟨rfl, rfl⟩
  | succ n ih =>
      unfold placeLoop
      rcases hp : genXY r with ⟨⟨x, y⟩, r2⟩
      simp only [hall x y, Bool.false_eq_true, if_false]
      exact ih r2

/-- The footprint used by `_place_room_anywhere` has positive extent. -/
theorem anywhereFootprint_pos (t : String) :
    1 ≤ (anywhereFootprint t).1 ∧ 1 ≤ (anywhereFootprint t).2 := by
  unfold anywhereFootprint
  cases standard_dimensions t with
  | none => exact ⟨by norm_num, by norm_num⟩
  | some s => exact ⟨le_max_left .., le_max_left ..⟩

/-- `_place_room_anywhere` satisfies the primitive contract. -/
theorem place_room_anywhere_ok (g : Grid) (gs : ℤ) (room : Room) (r : Rng) :
    PrimOK g gs (place_room_anywhere g gs room r) := by
  unfold place_room_anywhere
  rcases h1 : placeLoop 100 g gs (anywhereFootprint (pyLower room.type)).1
      (anywhereFootprint (pyLower room.type)).2
      (genAnywhereXY gs (anywhereFootprint (pyLower room.type)).1
        (anywhereFootprint (pyLower room.type)).2) r with ⟨o1, g1, r1⟩
  have H1 := placeLoop_ok 100 g gs (anywhereFootprint (pyLower room.type)).1
    (anywhereFootprint (pyLower room.type)).2
    (genAnywhereXY gs (anywhereFootprint (pyLower room.type)).1
      (anywhereFootprint (pyLower room.type)).2) r
  rw [h1] at H1
  cases o1 with
  | some res =>
      simp only [h1]
      exact H1
  | none =>
      simp only [h1]
      by_cases hsh : (anywhereFootprint (pyLower room.type)).1 > 1 ∧
        (anywhereFootprint (pyLower room.type)).2 > 1
      · simp only [hsh, if_true]
        rcases h2 : placeLoop 50 g gs ((anywhereFootprint (pyLower room.type)).1 - 1)
            ((anywhereFootprint (pyLower room.type)).2 - 1)
            (genAnywhereXY gs ((anywhereFootprint (pyLower room.type)).1 - 1)
              ((anywhereFootprint (pyLower room.type)).2 - 1)) r1 with ⟨o2, g2, r2⟩
        have H2 := placeLoop_ok 50 g gs ((anywhereFootprint (pyLower room.type)).1 - 1)
          ((anywhereFootprint (pyLower room.type)).2 - 1)
          (genAnywhereXY gs ((anywhereFootprint (pyLower room.type)).1 - 1)
            ((anywhereFootprint (pyLower room.type)).2 - 1)) r1
        rw [h2] at H2
        cases o2 with
        | some res => exact H2
        | none =>
            rcases h3 : scanFree g gs with _ | c
            · exact ⟨fun _ => rfl, fun xy wh hxy => by simp at hxy⟩
            · obtain ⟨hc1, hc2, hc3, hc4, hc5⟩ := scanFree_some g gs c h3
              refine ⟨fun hc => by simp at hc, ?_⟩
              intro xy wh hxy
              simp only [Prod.mk.injEq, Option.some.injEq] at hxy
              obtain ⟨rfl, rfl⟩ := hxy
              refine ⟨hc2, hc4, by omega, by omega, ?_, rfl⟩
              rw [cellsOf_one_one, Finset.disjoint_singleton_left]
              simpa using hc1
      · simp only [hsh, if_false]
        rcases h3 : scanFree g gs with _ | c
        · exact ⟨fun _ => rfl, fun xy wh hxy => by simp at hxy⟩
        · obtain ⟨hc1, hc2, hc3, hc4, hc5⟩ := scanFree_some g gs c h3
          refine ⟨fun hc => by simp at hc, ?_⟩
          intro xy wh hxy
          simp only [Prod.mk.injEq, Option.some.injEq] at hxy
          obtain ⟨rfl, rfl⟩ := hxy
          refine ⟨hc2, hc4, by omega, by omega, ?_, rfl⟩
          rw [cellsOf_one_one, Finset.disjoint_singleton_left]
          simpa using hc1

/-- The zone retry loop with its anywhere fall-through satisfies the
primitive contract. -/
theorem zoneLoopThenAnywhere_ok (g : Grid) (gs : ℤ) (room : Room)
    (gw gh zx zy zw zh : ℤ) (r : Rng) :
    PrimOK g gs (zoneLoopThenAnywhere g gs room gw gh zx zy zw zh r) := by
  unfold zoneLoopThenAnywhere
  rcases h1 : placeLoop 50 g gs gw gh (genZoneXY zx zy zw zh gw gh) r
    with ⟨o1, g1, r1⟩
  have H1 := placeLoop_ok 50 g gs gw gh (genZoneXY zx zy zw zh gw gh) r
  rw [h1] at H1
  cases o1 with
  | some res => exact H1
  | none => exact place_room_anywhere_ok g gs room r1

/-- `_place_room_in_zone` satisfies the primitive contract. -/
theorem place_room_in_zone_ok (g : Grid) (gs : ℤ) (room : Room)
    (zone_pos zone_size corridor_pos : ℤ × ℤ) (r : Rng) :
    PrimOK g gs (place_room_in_zone g gs room zone_pos zone_size corridor_pos r) := by
  simp only [place_room_in_zone]
  repeat' split
  all_goals
    first
      | exact place_room_anywhere_ok g gs room r
      | exact zoneLoopThenAnywhere_ok g gs room _ _ _ _ _ _ r

/-- A successful neighbour-offset attempt passed the validity check. -/
theorem tryOffsets_spec (g : Grid) (gs gw gh tx ty : ℤ) :
    ∀ (l : List (ℤ × ℤ)) (c : ℤ × ℤ), tryOffsets g gs gw gh tx ty l = some c →
    is_position_valid g gs c.1 c.2 gw gh = true := by
  intro l
  induction l with
  | nil => intro c hc; simp [tryOffsets] at hc
  | cons d rest ih =>
      intro c hc
      simp only [tryOffsets] at hc
      split at hc
      · exact ih c hc
      · split at hc
        · rename_i hv
          obtain rfl : (tx + d.1 * gw, ty + d.2 * gh) = c := by simpa using hc
          exact hv
        · exact ih c hc

/-- `_place_room_near_position` satisfies the primitive contract. -/
theorem place_room_near_position_ok (g : Grid) (gs : ℤ) (room : Room)
    (target_pos : ℤ × ℤ) (r : Rng) :
    PrimOK g gs (place_room_near_position g gs room target_pos r) := by
  simp only [place_room_near_position]
  rcases h0 : tryOffsets g gs (zoneFootprint (pyLower room.type)).1
      (zoneFootprint (pyLower room.type)).2 target_pos.1 target_pos.2
      [(1, 0), (-1, 0), (0, 1), (0, -1)] with _ | c
  · rcases h1 : placeLoop 20 g gs (zoneFootprint (pyLower room.type)).1
        (zoneFootprint (pyLower room.type)).2
        (genNearXY gs (zoneFootprint (pyLower room.type)).1
          (zoneFootprint (pyLower room.type)).2 target_pos.1 target_pos.2) r
      with ⟨o1, g1, r1⟩
    have H1 := placeLoop_ok 20 g gs (zoneFootprint (pyLower room.type)).1
      (zoneFootprint (pyLower room.type)).2
      (genNearXY gs (zoneFootprint (pyLower room.type)).1
        (zoneFootprint (pyLower room.type)).2 target_pos.1 target_pos.2) r
    rw [h1] at H1
    cases o1 with
    | some res => exact H1
    | none => exact place_room_anywhere_ok g gs room r1
  · have hv := tryOffsets_spec g gs (zoneFootprint (pyLower room.type)).1
      (zoneFootprint (pyLower room.type)).2 target_pos.1 target_pos.2 _ c h0
    obtain ⟨b1, b2, b3, b4, b5⟩ := is_position_valid_spec g gs c.1 c.2 _ _ hv
    refine ⟨fun hc => by simp at hc, ?_⟩
    intro xy wh hxy
    simp only [Prod.mk.injEq, Option.some.injEq] at hxy
    obtain ⟨rfl, rfl⟩ := hxy
    exact ⟨b1, b2, b3, b4, b5, rfl⟩

/-- A placement lies entirely within the `gs × gs` grid. -/
def inBoundsPlc (gs : ℤ) (p : Plc) : Prop :=
  0 ≤ p.pos.1 ∧ 0 ≤ p.pos.2 ∧ p.pos.1 + p.size.1 ≤ gs ∧ p.pos.2 + p.size.2 ≤ gs

/-- All placements recorded on a floor, the corridor included. -/
def storyPlcs (rooms : List Room) (gs : ℤ) (r : Rng) : List Plc :=
  ⟨⟨"corridor"⟩, (genStoryPlacements rooms gs r).1.1,
    (genStoryPlacements rooms gs r).1.2⟩ ::
  (genStoryPlacements rooms gs r).2.plcs

/-- The invariant maintained by the placement phase: the reserved cell
set `c` (the corridor's cells) is recorded in the grid, the recorded
placements are pairwise disjoint, recorded in the grid, disjoint from
`c`, and within bounds. -/
def StInv (c : Grid) (gs : ℤ) (U : List Room) (st : PState) : Prop :=
  c ⊆ st.g ∧
  st.plcs.Pairwise (fun p q => Disjoint p.cells q.cells) ∧
  (∀ p ∈ st.plcs, p.cells ⊆ st.g) ∧
  (∀ p ∈ st.plcs, Disjoint c p.cells) ∧
  (∀ p ∈ st.plcs, inBoundsPlc gs p) ∧
  (∀ p ∈ st.plcs, p.room ∈ U)

/-- Recording the outcome of a contract-satisfying placement attempt
preserves the invariant and appends at most one placement. -/
theorem record_inv (c : Grid) (gs : ℤ) (U : List Room) (st : PState)
    (room : Room) (out : Option ((ℤ × ℤ) × (ℤ × ℤ)) × Grid × Rng)
    (hout : PrimOK st.g gs out) (hinv : StInv c gs U st) (hroom : room ∈ U) :
    StInv c gs U (record st room out) ∧
    (record st room out).plcs.length ≤ st.plcs.length + 1 := by
  obtain ⟨hc, hpw, hsub, hdisj, hbnd, hmem⟩ := hinv
  rcases out with ⟨o, g1, r1⟩
  cases o with
  | none =>
      have hg : g1 = st.g := hout.1 rfl
      subst hg
      exact ⟨⟨hc, hpw, hsub, hdisj, hbnd, hmem⟩, by simp [record]⟩
  | some res =>
      rcases res with ⟨xy, wh⟩
      obtain ⟨b1, b2, b3, b4, b5, b6⟩ := hout.2 xy wh rfl
      simp only at b6
      subst b6
      have hcells : (Plc.mk room xy wh).cells = cellsOf xy.1 xy.2 wh.1 wh.2 := rfl
      simp only [record, StInv]
      constructor
      · refine ⟨?_, ?_, ?_, ?_, ?_, ?_⟩
        · exact hc.trans Finset.subset_union_left
        · rw [List.pairwise_append]
          refine ⟨hpw, by simp, ?_⟩
          intro p hp q hq
          simp only [List.mem_singleton] at hq
          subst hq
          rw [hcells]
          exact Finset.disjoint_right.mpr fun a ha ha' =>
            (Finset.disjoint_left.mp b5) ha (hsub p hp ha')
        · intro p hp
          rcases List.mem_append.mp hp with hp | hp
          · exact (hsub p hp).trans Finset.subset_union_left
          · simp only [List.mem_singleton] at hp
            subst hp
            rw [hcells, mark]
            exact Finset.subset_union_right
        · intro p hp
          rcases List.mem_append.mp hp with hp | hp
          · exact hdisj p hp
          · simp only [List.mem_singleton] at hp
            subst hp
            rw [hcells]
            exact Finset.disjoint_left.mpr fun a ha ha' =>
              (Finset.disjoint_left.mp b5) ha' (hc ha)
        · intro p hp
          rcases List.mem_append.mp hp with hp | hp
          · exact hbnd p hp
          · simp only [List.mem_singleton] at hp
            subst hp
            exact ⟨b1, b2, b3, b4⟩
        · intro p hp
          rcases List.mem_append.mp hp with hp | hp
          · exact hmem p hp
          · simp only [List.mem_singleton] at hp
            subst hp
            exact hroom
      · simp [record]

/-- The public-rooms loop preserves the invariant and adds at most one
placement per room. -/
theorem placePublicRooms_inv (c : Grid) (gs : ℤ) (cpos : ℤ × ℤ) (n : ℕ)
    (U : List Room) :
    ∀ (l : List Room) (i : ℕ) (st : PState), StInv c gs U st →
    (∀ rm ∈ l, rm ∈ U) →
    StInv c gs U (placePublicRooms gs cpos n l i st) ∧
    (placePublicRooms gs cpos n l i st).plcs.length ≤ st.plcs.length + l.length := by
  intro l
  induction l with
  | nil => intro i st hinv _; exact ⟨hinv, by simp [placePublicRooms]⟩
  | cons room rest ih =>
      intro i st hinv hl
      unfold placePublicRooms
      obtain ⟨h1, h2⟩ := record_inv c gs U st room _
        (place_room_in_zone_ok st.g gs room _ _ cpos st.r) hinv
        (hl room (by simp))
      obtain ⟨h3, h4⟩ := ih (i + 1) _ h1 (fun rm hrm => hl rm (by simp [hrm]))
      refine ⟨h3, ?_⟩
      simp only [List.length_cons]
      omega

/-- The fixed-zone loops preserve the invariant and add at most one
placement per room. -/
theorem placeRoomsInZone_inv (c : Grid) (gs : ℤ) (cpos : ℤ × ℤ)
    (zname : String) (U : List Room) :
    ∀ (l : List Room) (st : PState), StInv c gs U st →
    (∀ rm ∈ l, rm ∈ U) →
    StInv c gs U (placeRoomsInZone gs cpos zname l st) ∧
    (placeRoomsInZone gs cpos zname l st).plcs.length ≤ st.plcs.length + l.length := by
  intro l
  induction l with
  | nil => intro st hinv _; exact ⟨hinv, by simp [placeRoomsInZone]⟩
  | cons room rest ih =>
      intro st hinv hl
      unfold placeRoomsInZone
      obtain ⟨h1, h2⟩ := record_inv c gs U st room _
        (place_room_in_zone_ok st.g gs room _ _ cpos st.r) hinv
        (hl room (by simp))
      obtain ⟨h3, h4⟩ := ih _ h1 (fun rm hrm => hl rm (by simp [hrm]))
      refine ⟨h3, ?_⟩
      simp only [List.length_cons]
      omega

/-- The private-zone bathroom fallback preserves the invariant. -/
theorem bathFallback_inv (c : Grid) (gs : ℤ) (cpos : ℤ × ℤ) (U : List Room)
    (room : Room) (st : PState) (hinv : StInv c gs U st) (hroom : room ∈ U) :
    StInv c gs U (bathFallback gs cpos room st) ∧
    (bathFallback gs cpos room st).plcs.length ≤ st.plcs.length + 1 := by
  unfold bathFallback
  exact record_inv c gs U st room _
    (place_room_in_zone_ok st.g gs room _ _ cpos st.r) hinv hroom

/-- The bathroom loop preserves the invariant and adds at most one
placement per room. -/
theorem placeBathroomRooms_inv (c : Grid) (gs : ℤ) (cpos : ℤ × ℤ)
    (nBed nPubKitchen : ℕ) (U : List Room) :
    ∀ (l : List Room) (i : ℕ) (st : PState), StInv c gs U st →
    (∀ rm ∈ l, rm ∈ U) →
    StInv c gs U (placeBathroomRooms gs cpos nBed nPubKitchen l i st) ∧
    (placeBathroomRooms gs cpos nBed nPubKitchen l i st).plcs.length ≤
      st.plcs.length + l.length := by
  intro l
  induction l with
  | nil => intro i st hinv _; exact ⟨hinv, by simp [placeBathroomRooms]⟩
  | cons room rest ih =>
      intro i st hinv hl
      unfold placeBathroomRooms
      have hroom : room ∈ U := hl room (by simp)
      have hrest : ∀ rm ∈ rest, rm ∈ U := fun rm hrm => hl rm (by simp [hrm])
      have hstep : ∀ st1 : PState, StInv c gs U st1 →
          st1.plcs.length ≤ st.plcs.length + 1 →
          StInv c gs U (placeBathroomRooms gs cpos nBed nPubKitchen rest (i + 1) st1) ∧
          (placeBathroomRooms gs cpos nBed nPubKitchen rest (i + 1) st1).plcs.length ≤
            st.plcs.length + (room :: rest).length := by
        intro st1 h1 h2
        obtain ⟨h3, h4⟩ := ih (i + 1) st1 h1 hrest
        refine ⟨h3, ?_⟩
        simp only [List.length_cons]
        omega
      have hbs : ∀ target : ℤ × ℤ, StInv c gs U (bathStep gs cpos room target st) ∧
          (bathStep gs cpos room target st).plcs.length ≤ st.plcs.length + 1 := by
        intro target
        unfold bathStep
        rcases hnear : place_room_near_position st.g gs room target st.r
          with ⟨o, g1, r1⟩
        have H := place_room_near_position_ok st.g gs room target st.r
        rw [hnear] at H
        cases o with
        | some res =>
            have hrec := record_inv c gs U st room (some res, g1, r1) H hinv hroom
            exact ⟨hrec.1, hrec.2⟩
        | none =>
            have hg : g1 = st.g := H.1 rfl
            subst hg
            have hinv1 : StInv c gs U (⟨st.g, r1, st.plcs⟩ : PState) := hinv
            exact bathFallback_inv c gs cpos U room _ hinv1 hroom
      split
      · split
        · exact hstep _ (hbs _).1 (hbs _).2
        · obtain ⟨h1, h2⟩ := bathFallback_inv c gs cpos U room st hinv hroom
          exact hstep _ h1 h2
      · obtain ⟨h1, h2⟩ := bathFallback_inv c gs cpos U room st hinv hroom
        exact hstep _ h1 h2

/-- The zone iteration of the `other_rooms` loop preserves the
invariant; a success appends exactly one placement, a failure leaves
the placements untouched. -/
theorem tryZonesList_inv (c : Grid) (gs : ℤ) (cpos : ℤ × ℤ) (U : List Room)
    (room : Room) (hroom : room ∈ U) :
    ∀ (zl : List String) (st : PState), StInv c gs U st →
    StInv c gs U (tryZonesList gs cpos room zl st).1 ∧
    ((tryZonesList gs cpos room zl st).2 = true →
      (tryZonesList gs cpos room zl st).1.plcs.length ≤ st.plcs.length + 1) ∧
    ((tryZonesList gs cpos room zl st).2 = false →
      (tryZonesList gs cpos room zl st).1.plcs = st.plcs) := by
  intro zl
  induction zl with
  | nil =>
      intro st hinv
      exact ⟨hinv, by simp [tryZonesList], by simp [tryZonesList]⟩
  | cons zname rest ih =>
      intro st hinv
      simp only [tryZonesList]
      rcases hz : place_room_in_zone st.g gs room (zones gs zname).1
          (zones gs zname).2 cpos st.r with ⟨o, g1, r1⟩
      have H := place_room_in_zone_ok st.g gs room (zones gs zname).1
        (zones gs zname).2 cpos st.r
      rw [hz] at H
      cases o with
      | some res =>
          have hrec := record_inv c gs U st room (some res, g1, r1) H hinv hroom
          exact ⟨hrec.1, fun _ => hrec.2, fun hf => by simp at hf⟩
      | none =>
          have hg : g1 = st.g := H.1 rfl
          subst hg
          have hinv1 : StInv c gs U (⟨st.g, r1, st.plcs⟩ : PState) := hinv
          exact ih _ hinv1

/-- The `other_rooms` loop preserves the invariant and adds at most one
placement per room. -/
theorem placeOtherRooms_inv (c : Grid) (gs : ℤ) (cpos : ℤ × ℤ)
    (U : List Room) :
    ∀ (l : List Room) (st : PState), StInv c gs U st →
    (∀ rm ∈ l, rm ∈ U) →
    StInv c gs U (placeOtherRooms gs cpos l st) ∧
    (placeOtherRooms gs cpos l st).plcs.length ≤ st.plcs.length + l.length := by
  intro l
  induction l with
  | nil => intro st hinv _; exact ⟨hinv, by simp [placeOtherRooms]⟩
  | cons room rest ih =>
      intro st hinv hl
      unfold placeOtherRooms
      have hroom : room ∈ U := hl room (by simp)
      have hrest : ∀ rm ∈ rest, rm ∈ U := fun rm hrm => hl rm (by simp [hrm])
      obtain ⟨hz1, hz2, hz3⟩ := tryZonesList_inv c gs cpos U room hroom
        ["public", "private", "service", "other"] st hinv
      have hnext : ∀ st1 : PState, StInv c gs U st1 →
          st1.plcs.length ≤ st.plcs.length + 1 →
          StInv c gs U (placeOtherRooms gs cpos rest st1) ∧
          (placeOtherRooms gs cpos rest st1).plcs.length ≤
            st.plcs.length + (room :: rest).length := by
        intro st1 h1 h2
        obtain ⟨h3, h4⟩ := ih st1 h1 hrest
        refine ⟨h3, ?_⟩
        simp only [List.length_cons]
        omega
      by_cases hflag : (tryZonesList gs cpos room
          ["public", "private", "service", "other"] st).2 = true
      · simp only [hflag, if_true]
        exact hnext _ hz1 (hz2 hflag)
      · rw [Bool.not_eq_true] at hflag
        simp only [hflag, Bool.false_eq_true, if_false]
        have hplcs := hz3 hflag
        have hlen : (tryZonesList gs cpos room
            ["public", "private", "service", "other"] st).1.plcs.length =
            st.plcs.length := by rw [hplcs]
        obtain ⟨hr1, hr2⟩ := record_inv c gs U
          (tryZonesList gs cpos room ["public", "private", "service", "other"] st).1
          room _
          (place_room_anywhere_ok
            (tryZonesList gs cpos room ["public", "private", "service", "other"] st).1.g
            gs room
            (tryZonesList gs cpos room ["public", "private", "service", "other"] st).1.r)
          hz1 hroom
        exact hnext _ hr1 (by omega)

/-- The corridor strip returned by `_place_corridor` lies within the
grid whenever `2 ≤ grid_size`. -/
theorem place_corridor_bounds (g : Grid) (gs : ℤ) (h : 2 ≤ gs) :
    0 ≤ (place_corridor g gs).1.1.1 ∧ 0 ≤ (place_corridor g gs).1.1.2 ∧
    (place_corridor g gs).1.1.1 + (place_corridor g gs).1.2.1 ≤ gs ∧
    (place_corridor g gs).1.1.2 + (place_corridor g gs).1.2.2 ≤ gs := by
  simp only [place_corridor]
  split <;> refine ⟨by omega, ?_, by omega, ?_⟩ <;> omega

/-- The grid returned by `_place_corridor` is the input grid with the
corridor's cells marked. -/
theorem place_corridor_grid (g : Grid) (gs : ℤ) :
    (place_corridor g gs).2 = mark g (place_corridor g gs).1.1.1
      (place_corridor g gs).1.1.2 (place_corridor g gs).1.2.1
      (place_corridor g gs).1.2.2 := by
  simp only [place_corridor]

/-- The five category filters of `_generate_story_layout` together with
the pointwise complement partition the room list. -/
theorem five_cat_sum (rooms : List Room) :
    (rooms.filter fun rm => decide (pyLower rm.type ∈ storyPublicTypes)).length +
    (rooms.filter fun rm =>
      decide (pyLower rm.type ∈ (["kitchen"] : List String))).length +
    (rooms.filter fun rm => decide (pyLower rm.type = "bedroom")).length +
    (rooms.filter fun rm =>
      decide (pyLower rm.type ∈ (["bathroom", "washroom"] : List String))).length +
    (rooms.filter fun rm =>
      decide (pyLower rm.type ∈ (["garage", "car parking"] : List String))).length +
    (rooms.filter fun rm =>
      !(decide (pyLower rm.type ∈ storyPublicTypes) ||
        decide (pyLower rm.type ∈ (["kitchen"] : List String)) ||
        decide (pyLower rm.type = "bedroom") ||
        decide (pyLower rm.type ∈ (["bathroom", "washroom"] : List String)) ||
        decide (pyLower rm.type ∈ (["garage", "car parking"] : List String)))).length
    = rooms.length := by
  induction rooms with
  | nil => simp
  | cons a rest ih =>
      simp only [List.filter_cons, List.length_cons]
      by_cases h1 : pyLower a.type ∈ storyPublicTypes
      · simp only [storyPublicTypes, List.mem_cons, List.mem_singleton,
          List.not_mem_nil, or_false] at h1
        rcases h1 with h | h | h | h | h <;> simp_all [storyPublicTypes] <;> omega
      · by_cases h2 : pyLower a.type ∈ (["kitchen"] : List String)
        · rw [List.mem_singleton] at h2
          simp_all [storyPublicTypes]
          omega
        · by_cases h3 : pyLower a.type = "bedroom"
          · simp_all [storyPublicTypes]
            omega
          · by_cases h4 : pyLower a.type ∈ (["bathroom", "washroom"] : List String)
            · simp only [List.mem_cons, List.mem_singleton, List.not_mem_nil,
                or_false] at h4
              rcases h4 with h | h <;> simp_all [storyPublicTypes] <;> omega
            · by_cases h5 : pyLower a.type ∈ (["garage", "car parking"] : List String)
              · simp only [List.mem_cons, List.mem_singleton, List.not_mem_nil,
                  or_false] at h5
                rcases h5 with h | h <;> simp_all [storyPublicTypes] <;> omega
              · simp_all
                omega

/-- On elements of the room list, not appearing in any category filter
is the same as satisfying none of the category predicates, so the
`other_rooms` filter can be rewritten pointwise. -/
theorem other_filter_eq (rooms : List Room) :
    (rooms.filter fun rm =>
      decide (rm ∉
        (rooms.filter fun q => decide (pyLower q.type ∈ storyPublicTypes)) ++
        (rooms.filter fun q => decide (pyLower q.type ∈ (["kitchen"] : List String))) ++
        (rooms.filter fun q => decide (pyLower q.type = "bedroom")) ++
        (rooms.filter fun q =>
          decide (pyLower q.type ∈ (["bathroom", "washroom"] : List String))) ++
        (rooms.filter fun q =>
          decide (pyLower q.type ∈ (["garage", "car parking"] : List String))))) =
    (rooms.filter fun rm =>
      !(decide (pyLower rm.type ∈ storyPublicTypes) ||
        decide (pyLower rm.type ∈ (["kitchen"] : List String)) ||
        decide (pyLower rm.type = "bedroom") ||
        decide (pyLower rm.type ∈ (["bathroom", "washroom"] : List String)) ||
        decide (pyLower rm.type ∈ (["garage", "car parking"] : List String)))) := by
  apply List.filter_congr
  intro rm hrm
  have hiff : (rm ∈
      (rooms.filter fun q => decide (pyLower q.type ∈ storyPublicTypes)) ++
      (rooms.filter fun q => decide (pyLower q.type ∈ (["kitchen"] : List String))) ++
      (rooms.filter fun q => decide (pyLower q.type = "bedroom")) ++
      (rooms.filter fun q =>
        decide (pyLower q.type ∈ (["bathroom", "washroom"] : List String))) ++
      (rooms.filter fun q =>
        decide (pyLower q.type ∈ (["garage", "car parking"] : List String)))) ↔
      (pyLower rm.type ∈ storyPublicTypes ∨
        pyLower rm.type ∈ (["kitchen"] : List String) ∨
        pyLower rm.type = "bedroom" ∨
        pyLower rm.type ∈ (["bathroom", "washroom"] : List String) ∨
        pyLower rm.type ∈ (["garage", "car parking"] : List String)) := by
    simp [List.mem_append, List.mem_filter, hrm]
  have hd : decide (rm ∉
      (rooms.filter fun q => decide (pyLower q.type ∈ storyPublicTypes)) ++
      (rooms.filter fun q => decide (pyLower q.type ∈ (["kitchen"] : List String))) ++
      (rooms.filter fun q => decide (pyLower q.type = "bedroom")) ++
      (rooms.filter fun q =>
        decide (pyLower q.type ∈ (["bathroom", "washroom"] : List String))) ++
      (rooms.filter fun q =>
        decide (pyLower q.type ∈ (["garage", "car parking"] : List String)))) =
      decide (¬ (pyLower rm.type ∈ storyPublicTypes ∨
        pyLower rm.type ∈ (["kitchen"] : List String) ∨
        pyLower rm.type = "bedroom" ∨
        pyLower rm.type ∈ (["bathroom", "washroom"] : List String) ∨
        pyLower rm.type ∈ (["garage", "car parking"] : List String))) :=
    decide_eq_decide.mpr (not_congr hiff)
  rw [hd]
  by_cases hP1 : pyLower rm.type ∈ storyPublicTypes <;>
  by_cases hP2 : pyLower rm.type ∈ (["kitchen"] : List String) <;>
  by_cases hP3 : pyLower rm.type = "bedroom" <;>
  by_cases hP4 : pyLower rm.type ∈ (["bathroom", "washroom"] : List String) <;>
  by_cases hP5 : pyLower rm.type ∈ (["garage", "car parking"] : List String) <;>
  simp [hP1, hP2, hP3, hP4, hP5]

/-- The full placement phase of a story maintains the invariant
(starting from the freshly marked corridor) and records at most one
placement per requested room. -/
theorem genStoryPlacements_inv (rooms : List Room) (gs : ℤ) (r : Rng) :
    StInv (cellsOf (genStoryPlacements rooms gs r).1.1.1
        (genStoryPlacements rooms gs r).1.1.2
        (genStoryPlacements rooms gs r).1.2.1
        (genStoryPlacements rooms gs r).1.2.2) gs rooms
      (genStoryPlacements rooms gs r).2 ∧
    (genStoryPlacements rooms gs r).2.plcs.length ≤ rooms.length := by
  have hsub : ∀ (p : Room → Bool), ∀ rm ∈ rooms.filter p, rm ∈ rooms :=
    fun p rm h => (List.mem_filter.mp h).1
  simp only [genStoryPlacements]
  have h0 : StInv (cellsOf (place_corridor ∅ gs).1.1.1 (place_corridor ∅ gs).1.1.2
      (place_corridor ∅ gs).1.2.1 (place_corridor ∅ gs).1.2.2) gs rooms
      ⟨(place_corridor ∅ gs).2, r, []⟩ := by
    refine ⟨?_, by simp, by simp, by simp, by simp, by simp⟩
    rw [place_corridor_grid ∅ gs]
    exact Finset.subset_union_right
  obtain ⟨h1, l1⟩ := placePublicRooms_inv _ gs (place_corridor ∅ gs).1.1
    (rooms.filter fun rm => decide (pyLower rm.type ∈ storyPublicTypes)).length
    rooms (rooms.filter fun rm => decide (pyLower rm.type ∈ storyPublicTypes))
    0 _ h0 (hsub _)
  obtain ⟨h2, l2⟩ := placeRoomsInZone_inv _ gs (place_corridor ∅ gs).1.1 "service"
    rooms (rooms.filter fun rm =>
      decide (pyLower rm.type ∈ (["kitchen"] : List String))) _ h1 (hsub _)
  obtain ⟨h3, l3⟩ := placeRoomsInZone_inv _ gs (place_corridor ∅ gs).1.1 "private"
    rooms (rooms.filter fun rm => decide (pyLower rm.type = "bedroom")) _ h2 (hsub _)
  obtain ⟨h4, l4⟩ := placeBathroomRooms_inv _ gs (place_corridor ∅ gs).1.1
    (rooms.filter fun rm => decide (pyLower rm.type = "bedroom")).length
    ((rooms.filter fun rm => decide (pyLower rm.type ∈ storyPublicTypes)).length +
      (rooms.filter fun rm =>
        decide (pyLower rm.type ∈ (["kitchen"] : List String))).length)
    rooms (rooms.filter fun rm =>
      decide (pyLower rm.type ∈ (["bathroom", "washroom"] : List String)))
    0 _ h3 (hsub _)
  obtain ⟨h5, l5⟩ := placeRoomsInZone_inv _ gs (place_corridor ∅ gs).1.1 "service"
    rooms (rooms.filter fun rm =>
      decide (pyLower rm.type ∈ (["garage", "car parking"] : List String))) _ h4 (hsub _)
  obtain ⟨h6, l6⟩ := placeOtherRooms_inv _ gs (place_corridor ∅ gs).1.1
    rooms (rooms.filter fun rm =>
      decide (rm ∉
        (rooms.filter fun q => decide (pyLower q.type ∈ storyPublicTypes)) ++
        (rooms.filter fun q => decide (pyLower q.type ∈ (["kitchen"] : List String))) ++
        (rooms.filter fun q => decide (pyLower q.type = "bedroom")) ++
        (rooms.filter fun q =>
          decide (pyLower q.type ∈ (["bathroom", "washroom"] : List String))) ++
        (rooms.filter fun q =>
          decide (pyLower q.type ∈ (["garage", "car parking"] : List String)))))
    _ h5 (hsub _)
  refine ⟨h6, ?_⟩
  have hlen := congrArg List.length (other_filter_eq rooms)
  have hsum := five_cat_sum rooms
  simp only [List.length_nil] at l1
  omega

/-- C2: on every floor, for every input room list, grid size and draw
stream, the recorded placements — corridor included — occupy pairwise
disjoint grid cell sets: every placement was accepted only with all its
target cells free and immediately marked them occupied. -/
theorem C2_no_overlap (rooms : List Room) (gs : ℤ) (r : Rng) :
    (storyPlcs rooms gs r).Pairwise (fun p q => Disjoint p.cells q.cells) := by
  obtain ⟨⟨hc, hpw, hsub, hdisj, hbnd, hmem⟩, _⟩ := genStoryPlacements_inv rooms gs r
  rw [storyPlcs, List.pairwise_cons]
  exact ⟨fun p hp => hdisj p hp, hpw⟩

/-- C10: every placement recorded on a floor — the corridor, zone
placements, anywhere placements, near-position placements and the
last-resort single-cell scan — lies entirely within the
`grid_size × grid_size` grid (for the grid sizes `≥ 2` that
`generate_layout` produces, every occupancy-grid write is in bounds). -/
theorem C10_in_bounds (rooms : List Room) (gs : ℤ) (r : Rng) (hgs : 2 ≤ gs) :
    ∀ p ∈ storyPlcs rooms gs r,
      0 ≤ p.pos.1 ∧ 0 ≤ p.pos.2 ∧
      p.pos.1 + p.size.1 ≤ gs ∧ p.pos.2 + p.size.2 ≤ gs := by
  obtain ⟨⟨hc, hpw, hsub, hdisj, hbnd, hmem⟩, _⟩ := genStoryPlacements_inv rooms gs r
  intro p hp
  rw [storyPlcs, List.mem_cons] at hp
  rcases hp with hp | hp
  · subst hp
    exact place_corridor_bounds ∅ gs hgs
  · exact hbnd p hp

/-- Witness for `C10_in_bounds` at a concrete input: the corridor of an
empty floor on a 5-grid. -/
theorem C10_in_bounds_witness :
    0 ≤ ((storyPlcs [] 5 rng0).getD 0 default).pos.1 ∧
    0 ≤ ((storyPlcs [] 5 rng0).getD 0 default).pos.2 ∧
    ((storyPlcs [] 5 rng0).getD 0 default).pos.1 +
      ((storyPlcs [] 5 rng0).getD 0 default).size.1 ≤ 5 ∧
    ((storyPlcs [] 5 rng0).getD 0 default).pos.2 +
      ((storyPlcs [] 5 rng0).getD 0 default).size.2 ≤ 5 :=
  C10_in_bounds [] 5 rng0 (by decide) ((storyPlcs [] 5 rng0).getD 0 default)
    (by decide)

/-- The number of `rooms_list` entries equals the number of recorded
placements plus the corridor. -/
theorem buildRooms_length (sx sy : ℚ) (st : ℕ) :
    ∀ (plcs : List Plc) (i : ℤ),
    (buildRooms sx sy st plcs i).length = plcs.length := by
  intro plcs
  induction plcs with
  | nil => intro i; rfl
  | cons p rest ih => intro i; simp [buildRooms, ih]

/-- The footprint dimensions used in the shrink phase stay positive. -/
theorem anywhereFootprint_shrunk_pos (t : String)
    (h : (anywhereFootprint t).1 > 1 ∧ (anywhereFootprint t).2 > 1) :
    1 ≤ (anywhereFootprint t).1 - 1 ∧ 1 ≤ (anywhereFootprint t).2 - 1 := by
  omega

/-- `_place_room_anywhere` returns no position exactly when the grid has
no free in-bounds cell. -/
theorem place_room_anywhere_none_iff (g : Grid) (gs : ℤ) (room : Room) (r : Rng) :
    (place_room_anywhere g gs room r).1 = none ↔
    ∀ x y : ℤ, 0 ≤ x → x < gs → 0 ≤ y → y < gs → (x, y) ∈ g := by
  constructor
  · intro hnone
    simp only [place_room_anywhere] at hnone
    rcases h1 : placeLoop 100 g gs (anywhereFootprint (pyLower room.type)).1
        (anywhereFootprint (pyLower room.type)).2
        (genAnywhereXY gs (anywhereFootprint (pyLower room.type)).1
          (anywhereFootprint (pyLower room.type)).2) r with ⟨o1, g1, r1⟩
    rw [h1] at hnone
    cases o1 with
    | some res => simp at hnone
    | none =>
        by_cases hsh : (anywhereFootprint (pyLower room.type)).1 > 1 ∧
            (anywhereFootprint (pyLower room.type)).2 > 1
        · simp only [hsh, if_true] at hnone
          rcases h2 : placeLoop 50 g gs ((anywhereFootprint (pyLower room.type)).1 - 1)
              ((anywhereFootprint (pyLower room.type)).2 - 1)
              (genAnywhereXY gs ((anywhereFootprint (pyLower room.type)).1 - 1)
                ((anywhereFootprint (pyLower room.type)).2 - 1)) r1 with ⟨o2, g2, r2⟩
          rw [h2] at hnone
          cases o2 with
          | some res => simp at hnone
          | none =>
              rcases h3 : scanFree g gs with _ | c
              · exact scanFree_none g gs h3
              · rw [h3] at hnone
                simp at hnone
        · simp only [hsh, if_false] at hnone
          rcases h3 : scanFree g gs with _ | c
          · exact scanFree_none g gs h3
          · rw [h3] at hnone
            simp at hnone
  · intro hfull
    have hfp := anywhereFootprint_pos (pyLower room.type)
    simp only [place_room_anywhere]
    have hinv1 : ∀ x y, is_position_valid g gs x y
        (anywhereFootprint (pyLower room.type)).1
        (anywhereFootprint (pyLower room.type)).2 = false :=
      fun x y => valid_false_of_full g gs x y _ _ hfp.1 hfp.2 hfull
    obtain ⟨hn1, hg1⟩ := placeLoop_none_of_invalid 100 g gs _ _
      (genAnywhereXY gs (anywhereFootprint (pyLower room.type)).1
        (anywhereFootprint (pyLower room.type)).2) r hinv1
    rcases h1 : placeLoop 100 g gs (anywhereFootprint (pyLower room.type)).1
        (anywhereFootprint (pyLower room.type)).2
        (genAnywhereXY gs (anywhereFootprint (pyLower room.type)).1
          (anywhereFootprint (pyLower room.type)).2) r with ⟨o1, g1, r1⟩
    rw [h1] at hn1 hg1
    simp only at hn1 hg1
    subst hn1
    by_cases hsh : (anywhereFootprint (pyLower room.type)).1 > 1 ∧
        (anywhereFootprint (pyLower room.type)).2 > 1
    · obtain ⟨hw1, hh1⟩ := anywhereFootprint_shrunk_pos (pyLower room.type) hsh
      have hinv2 : ∀ x y, is_position_valid g gs x y
          ((anywhereFootprint (pyLower room.type)).1 - 1)
          ((anywhereFootprint (pyLower room.type)).2 - 1) = false :=
        fun x y => valid_false_of_full g gs x y _ _ hw1 hh1 hfull
      obtain ⟨hn2, hg2⟩ := placeLoop_none_of_invalid 50 g gs _ _
        (genAnywhereXY gs ((anywhereFootprint (pyLower room.type)).1 - 1)
          ((anywhereFootprint (pyLower room.type)).2 - 1)) r1 hinv2
      rcases h2 : placeLoop 50 g gs ((anywhereFootprint (pyLower room.type)).1 - 1)
          ((anywhereFootprint (pyLower room.type)).2 - 1)
          (genAnywhereXY gs ((anywhereFootprint (pyLower room.type)).1 - 1)
            ((anywhereFootprint (pyLower room.type)).2 - 1)) r1 with ⟨o2, g2, r2⟩
      rw [h2] at hn2 hg2
      simp only at hn2 hg2
      subst hn2
      simp only [hsh, if_true, h2]
      rw [scanFree_none_of_full g gs hfull]
      simp
    · simp only [hsh, if_false]
      rw [scanFree_none_of_full g gs hfull]

/-- C9: a room whose placement exhausts every fallback gets no position
exactly when the occupancy grid has no free in-bounds cell; the failed
attempt leaves the grid unchanged, the embedding is total (no
exception), and the floor's room list is the corridor plus only the
successfully recorded placements — at most one per requested room, so
it may be shorter than the request count plus the corridor. -/
theorem C9_unplaceable (g : Grid) (gs : ℤ) (room : Room) (r : Rng)
    (rooms : List Room) (tw tl : ℚ) (story : ℕ) (start : ℤ) :
    ((place_room_anywhere g gs room r).1 = none ↔
      ∀ x y : ℤ, 0 ≤ x → x < gs → 0 ≤ y → y < gs → (x, y) ∈ g) ∧
    ((place_room_anywhere g gs room r).1 = none →
      (place_room_anywhere g gs room r).2.1 = g) ∧
    (generate_story_layout rooms tw tl story start gs r).1.rooms.length =
      (genStoryPlacements rooms gs r).2.plcs.length + 1 ∧
    (genStoryPlacements rooms gs r).2.plcs.length ≤ rooms.length := by
  refine ⟨place_room_anywhere_none_iff g gs room r,
    fun h => (place_room_anywhere_ok g gs room r).1 h, ?_,
    (genStoryPlacements_inv rooms gs r).2⟩
  rw [generate_story_layout_rooms]
  simp [buildRooms_length]

/-- Witness for `C9_unplaceable`: on a completely full 5 × 5 grid the
placement routine returns no position. -/
theorem C9_unplaceable_witness :
    (place_room_anywhere (cellsOf 0 0 5 5) 5 ⟨"bedroom"⟩ rng0).1 = none :=
  (C9_unplaceable (cellsOf 0 0 5 5) 5 ⟨"bedroom"⟩ rng0 [] 15 15 1 0).1.mpr
    (fun x y hx hx' hy hy' => by
      rw [mem_cellsOf]
      constructor <;> constructor <;> omega)

instance : Inhabited Door :=
  ⟨⟨(0, 0), "", 0, none, (0, 0)⟩⟩

/-- The Boolean test "this door's `connects` pair consists of ids `a`
and `b` (in either order)". -/
def connectsPair (a b : ℤ) (d : Door) : Bool :=
  decide ((d.connects.1 = a ∧ d.connects.2 = b) ∨
    (d.connects.1 = b ∧ d.connects.2 = a))

/-- Shape of the doors produced by the corridor-connection loop: one per
room, `type` absent, `connects = (corridor_id, start_id + index)`. -/
theorem mkConnDoors_shape (cr : RoomOut) (cid sid : ℤ) :
    ∀ (l : List RoomOut) (i : ℕ),
    ((mkConnDoors cr cid sid l i).2.length = l.length) ∧
    (∀ d ∈ (mkConnDoors cr cid sid l i).2,
      d.type = none ∧ ∃ k : ℕ, k < l.length ∧ d.connects = (cid, sid + ((i + k : ℕ) : ℤ))) := by
  intro l
  induction l with
  | nil => intro i; exact ⟨rfl, by simp [mkConnDoors]⟩
  | cons room rest ih =>
      intro i
      obtain ⟨ihl, ihd⟩ := ih (i + 1)
      constructor
      · simp [mkConnDoors, ihl]
      · intro d hd
        simp only [mkConnDoors, List.mem_cons] at hd
        rcases hd with hd | hd
        · subst hd
          exact ⟨rfl, 0, by simp, by simp⟩
        · obtain ⟨ht, k, hk, hc⟩ := ihd d hd
          refine ⟨ht, k + 1, by simp; omega, ?_⟩
          rw [hc]
          congr 2
          omega

/-- Count of pair-matching doors in the corridor-connection loop output:
exactly the doors whose index equals the target offset. -/
theorem mkConnDoors_pair_count (cr : RoomOut) (start : ℤ) (hstart : 0 ≤ start)
    (i : ℕ) (hi : 1 ≤ i) :
    ∀ (l : List RoomOut) (i0 : ℕ), 1 ≤ i0 →
    (mkConnDoors cr start start l i0).2.countP
      (connectsPair start (start + (i : ℤ))) =
      if i0 ≤ i ∧ i < i0 + l.length then 1 else 0 := by
  intro l
  induction l with
  | nil =>
      intro i0 hi0
      simp only [mkConnDoors, List.countP_nil, List.length_nil]
      split
      · rename_i h
        omega
      · rfl
  | cons room rest ih =>
      intro i0 hi0
      simp only [mkConnDoors, List.countP_cons]
      rw [ih (i0 + 1) (by omega)]
      have hhead : connectsPair start (start + (i : ℤ))
          ({ position := (find_door_position cr room).position,
             orientation := (find_door_position cr room).orientation,
             width := door_width, type := none,
             connects := (start, start + (i0 : ℤ)) } : Door) =
          if i0 = i then true else false := by
        simp only [connectsPair]
        split
        · rename_i h
          subst h
          simp
        · rename_i h
          have h1 : ¬ (start + (i0 : ℤ) = start + (i : ℤ)) := by omega
          have h2 : ¬ (start = start + (i : ℤ)) := by omega
          simp [h1, h2]
      rw [hhead]
      by_cases hcase : i0 = i
      · subst hcase
        simp only [if_true]
        have h1 : ¬ (i0 + 1 ≤ i0) := by omega
        have h2 : i0 ≤ i0 ∧ i0 < i0 + (rest.length + 1) := by omega
        simp [h1, h2]
      · rw [if_neg hcase]
        simp only [Bool.false_eq_true, if_false, Nat.add_zero, List.length_cons]
        split <;> split <;> omega

/-- A successful entrance scan returns an index of the scanned list
(offset by the starting index). -/
theorem findEntrance_lt : ∀ (l : List RoomOut) (i e : ℕ) (room : RoomOut),
    findEntrance l i = some (e, room) → i ≤ e ∧ e < i + l.length := by
  intro l
  induction l with
  | nil => intro i e room h; simp [findEntrance] at h
  | cons rm rest ih =>
      intro i e room h
      unfold findEntrance at h
      split at h
      · obtain ⟨rfl, rfl⟩ : i = e ∧ rm = room := by
          simpa using h
        simp
      · obtain ⟨h1, h2⟩ := ih (i + 1) e room h
        simp only [List.length_cons]
        omega

/-- A main-entrance door (second `connects` component `-1`) never
matches a pair of non-negative ids. -/
theorem mkMainDoor_pair_false (room : RoomOut) (rid a b : ℤ)
    (ha : 0 ≤ a) (hb : 0 ≤ b) :
    connectsPair a b (mkMainDoor room rid) = false := by
  simp only [connectsPair, mkMainDoor]
  have h1 : ¬ ((-1 : ℤ) = b) := by omega
  have h2 : ¬ ((-1 : ℤ) = a) := by omega
  simp [h1, h2]

/-- When the incoming doors carry no `type` key, the main-entrance stage
appends exactly one door: a main entrance anchored at a room index of
the floor. -/
theorem addMainDoors_shape (cr : RoomOut) (start : ℤ) (rl : List RoomOut)
    (doors : List Door) (hnone : ∀ d ∈ doors, d.type = none)
    (hlen : 0 < rl.length) :
    ∃ m : Door, addMainDoors cr start rl doors = doors ++ [m] ∧
      m.type = some "main_entrance" ∧
      ∃ k : ℕ, k < rl.length ∧ m.connects = (start + (k : ℤ), -1) := by
  unfold addMainDoors
  rcases hfe : findEntrance rl 0 with _ | e
  · have hany : (doors.any fun d => d.type == some "main_entrance") = false := by
      rw [List.any_eq_false]
      intro d hd
      rw [hnone d hd]
      simp
    simp only [hany, Bool.false_eq_true, if_false]
    exact ⟨mkMainDoor cr start, rfl, rfl,
      0, hlen, by simp [mkMainDoor]⟩
  · obtain ⟨he1, he2⟩ := findEntrance_lt rl 0 e.1 e.2 (by rw [hfe])
    have hany : ((doors ++ [mkMainDoor e.2 (start + (e.1 : ℤ))]).any
        fun d => d.type == some "main_entrance") = true := by
      rw [List.any_eq_true]
      exact ⟨mkMainDoor e.2 (start + (e.1 : ℤ)), by simp, by simp [mkMainDoor]⟩
    simp only [hany, if_true]
    exact ⟨mkMainDoor e.2 (start + (e.1 : ℤ)), rfl, rfl,
      e.1, by omega, by simp [mkMainDoor]⟩

/-- The doors of a story layout are its corridor-connection doors run
through the main-entrance stage. -/
theorem generate_story_layout_doors (rooms : List Room) (tw tl : ℚ)
    (story : ℕ) (start gs : ℤ) (r : Rng) :
    (generate_story_layout rooms tw tl story start gs r).1.doors =
      addMainDoors
        ((generate_story_layout rooms tw tl story start gs r).1.rooms.getD 0 default)
        start
        (generate_story_layout rooms tw tl story start gs r).1.rooms
        ((mkConnDoors
          ((generate_story_layout rooms tw tl story start gs r).1.rooms.getD 0 default)
          start start
          (generate_story_layout rooms tw tl story start gs r).1.rooms.tail 1).2) := by
  rfl

/-- The per-story facts used for cross-floor reasoning: ids are
consecutive from `start`, the head room is the corridor, exactly one
main-entrance door exists, every door's `connects` pair is either
`(start, start + k)` (a corridor connection) or `(start + k, -1)` (an
exterior door), and each non-corridor index has exactly one
corridor-connecting door. -/
def StoryFacts (start : ℤ) (sl : StoryLayout) : Prop :=
  0 < sl.rooms.length ∧
  (∀ j : ℕ, j < sl.rooms.length →
    (sl.rooms.getD j default).id = start + (j : ℤ)) ∧
  (sl.rooms.getD 0 default).type = "corridor" ∧
  sl.doors.countP (fun d => d.type == some "main_entrance") = 1 ∧
  (∀ d ∈ sl.doors, ∃ k : ℕ, k < sl.rooms.length ∧
    (d.connects = (start, start + (k : ℤ)) ∨ d.connects = (start + (k : ℤ), -1))) ∧
  (∀ i : ℕ, 1 ≤ i → i < sl.rooms.length →
    sl.doors.countP (connectsPair start (start + (i : ℤ))) = 1)

/-- Every story layout satisfies the per-story facts. -/
theorem generate_story_layout_facts (rooms : List Room) (tw tl : ℚ)
    (story : ℕ) (start gs : ℤ) (r : Rng) (hstart : 0 ≤ start) :
    StoryFacts start (generate_story_layout rooms tw tl story start gs r).1 := by
  have hrooms := generate_story_layout_rooms rooms tw tl story start gs r
  have hlen : (generate_story_layout rooms tw tl story start gs r).1.rooms.length =
      (genStoryPlacements rooms gs r).2.plcs.length + 1 := by
    rw [hrooms]
    simp [buildRooms_length]
  have hids : ∀ j : ℕ,
      j < (generate_story_layout rooms tw tl story start gs r).1.rooms.length →
      ((generate_story_layout rooms tw tl story start gs r).1.rooms.getD j
        default).id = start + (j : ℤ) := by
    intro j hj
    rw [hrooms]
    cases j with
    | zero => simp
    | succ j' =>
        rw [hlen] at hj
        have hj' : j' < (genStoryPlacements rooms gs r).2.plcs.length := by omega
        rw [List.getD_cons_succ, buildRooms_getD _ _ story _ (start + 1) j' hj']
        simp only
        push_cast
        ring
  have hhead : ((generate_story_layout rooms tw tl story start gs r).1.rooms.getD 0
      default).type = "corridor" := by
    rw [hrooms]
    simp
  -- door structure
  have hdoors := generate_story_layout_doors rooms tw tl story start gs r
  obtain ⟨hclen, hcshape⟩ := mkConnDoors_shape
    ((generate_story_layout rooms tw tl story start gs r).1.rooms.getD 0 default)
    start start
    (generate_story_layout rooms tw tl story start gs r).1.rooms.tail 1
  have hnone : ∀ d ∈ (mkConnDoors
      ((generate_story_layout rooms tw tl story start gs r).1.rooms.getD 0 default)
      start start
      (generate_story_layout rooms tw tl story start gs r).1.rooms.tail 1).2,
      d.type = none := fun d hd => (hcshape d hd).1
  have hlpos : 0 < (generate_story_layout rooms tw tl story start gs r).1.rooms.length := by
    omega
  obtain ⟨m, hm_eq, hm_type, km, hkm, hkm_conn⟩ := addMainDoors_shape
    ((generate_story_layout rooms tw tl story start gs r).1.rooms.getD 0 default)
    start (generate_story_layout rooms tw tl story start gs r).1.rooms
    ((mkConnDoors
      ((generate_story_layout rooms tw tl story start gs r).1.rooms.getD 0 default)
      start start
      (generate_story_layout rooms tw tl story start gs r).1.rooms.tail 1).2)
    hnone hlpos
  rw [hm_eq] at hdoors
  have htail_len :
      (generate_story_layout rooms tw tl story start gs r).1.rooms.tail.length =
      (genStoryPlacements rooms gs r).2.plcs.length := by
    rw [hrooms]
    simp [buildRooms_length]
  refine ⟨hlpos, hids, hhead, ?_, ?_, ?_⟩
  · -- exactly one main entrance
    rw [hdoors, List.countP_append]
    have h1 : (mkConnDoors
        ((generate_story_layout rooms tw tl story start gs r).1.rooms.getD 0 default)
        start start
        (generate_story_layout rooms tw tl story start gs r).1.rooms.tail 1).2.countP
        (fun d => d.type == some "main_entrance") = 0 := by
      rw [List.countP_eq_zero]
      intro d hd
      rw [hnone d hd]
      simp
    rw [h1]
    simp [hm_type]
  · -- every door's connects pair
    rw [hdoors]
    intro d hd
    rcases List.mem_append.mp hd with hd | hd
    · obtain ⟨_, k, hk, hconn⟩ := hcshape d hd
      refine ⟨1 + k, by omega, Or.inl ?_⟩
      rw [hconn]
    · simp only [List.mem_singleton] at hd
      subst hd
      exact ⟨km, hkm, Or.inr hkm_conn⟩
  · -- one connecting door per non-corridor index
    intro i hi1 hi2
    rw [hdoors, List.countP_append]
    have hconn := mkConnDoors_pair_count
      ((generate_story_layout rooms tw tl story start gs r).1.rooms.getD 0 default)
      start hstart i hi1
      (generate_story_layout rooms tw tl story start gs r).1.rooms.tail 1 (by omega)
    rw [htail_len] at hconn
    have hcond : 1 ≤ i ∧ i < 1 + (genStoryPlacements rooms gs r).2.plcs.length := by
      omega
    rw [hconn, if_pos hcond]
    have hmzero : ([m] : List Door).countP (connectsPair start (start + (i : ℤ))) = 0 := by
      simp only [List.countP_cons, List.countP_nil]
      have : connectsPair start (start + (i : ℤ)) m = false := by
        simp only [connectsPair, hkm_conn]
        have h1 : ¬ ((-1 : ℤ) = start + (i : ℤ)) := by omega
        have h2 : ¬ ((-1 : ℤ) = start) := by omega
        simp [h1, h2]
      simp [this]
    rw [hmzero]

/-- Chained per-story facts: each story's ids start where the previous
story's ids ended. -/
def StoriesFacts : ℤ → List StoryLayout → Prop
  | _, [] => True
  | start, sl :: rest =>
      StoryFacts start sl ∧ StoriesFacts (start + (sl.rooms.length : ℤ)) rest

/-- The per-story loop of `generate_layout` produces chained story
facts. -/
theorem genStoriesAux_facts (byStory : Assign) (tw tl : ℚ) (gs : ℤ) :
    ∀ (n story : ℕ) (start : ℤ) (r : Rng), 0 ≤ start →
    StoriesFacts start (genStoriesAux byStory tw tl gs n story start r).1 := by
  intro n
  induction n with
  | zero => intro story start r h; trivial
  | succ m ih =>
      intro story start r h
      simp only [genStoriesAux]
      split
      · exact ih (story + 1) start r h
      · refine ⟨generate_story_layout_facts _ tw tl story start gs r h, ?_⟩
        exact ih (story + 1) _ _ (by positivity)

/-- Ids of every room on every story of a chained list are bounded
below by the chain's starting id. -/
theorem storiesFacts_ids_lb :
    ∀ (L : List StoryLayout) (start : ℤ), StoriesFacts start L →
    ∀ sl ∈ L, ∀ j : ℕ, j < sl.rooms.length →
    start ≤ (sl.rooms.getD j default).id := by
  intro L
  induction L with
  | nil => intro start _ sl hsl; simp at hsl
  | cons hd rest ih =>
      intro start hf sl hsl j hj
      rcases List.mem_cons.mp hsl with rfl | hsl'
      · rw [hf.1.2.1 j hj]
        omega
      · have := ih (start + (hd.rooms.length : ℤ)) hf.2 sl hsl' j hj
        omega

/-- The first `connects` component of every door on every story of a
chained list is bounded below by the chain's starting id. -/
theorem storiesFacts_doors_lb :
    ∀ (L : List StoryLayout) (start : ℤ), StoriesFacts start L →
    ∀ sl ∈ L, ∀ d ∈ sl.doors, start ≤ d.connects.1 := by
  intro L
  induction L with
  | nil => intro start _ sl hsl; simp at hsl
  | cons hd rest ih =>
      intro start hf sl hsl d hdd
      rcases List.mem_cons.mp hsl with rfl | hsl'
      · obtain ⟨k, hk, hc | hc⟩ := hf.1.2.2.2.2.1 d hdd <;> rw [hc] <;> simp <;> omega
      · have := ih (start + (hd.rooms.length : ℤ)) hf.2 sl hsl' d hdd
        omega

/-- Across a chained list of stories, the doors pairing a story's
corridor id with one of its room ids occur exactly once in the
concatenated doors list. -/
theorem stories_pair_count :
    ∀ (L : List StoryLayout) (start : ℤ), 0 ≤ start → StoriesFacts start L →
    ∀ sl ∈ L, ∀ i : ℕ, 1 ≤ i → i < sl.rooms.length →
    ((L.map (fun s => s.doors)).flatten).countP
      (connectsPair ((sl.rooms.getD 0 default).id)
        ((sl.rooms.getD i default).id)) = 1 := by
  intro L
  induction L with
  | nil => intro start _ _ sl hsl; simp at hsl
  | cons hd rest ih =>
      intro start h0 hf sl hsl i hi1 hi2
      simp only [List.map_cons, List.flatten_cons, List.countP_append]
      rcases List.mem_cons.mp hsl with rfl | hsl'
      · have hid0 : (sl.rooms.getD 0 default).id = start := by
          rw [hf.1.2.1 0 (by omega)]
          simp
        have hidi : (sl.rooms.getD i default).id = start + (i : ℤ) :=
          hf.1.2.1 i hi2
        rw [hid0, hidi]
        have hhd : sl.doors.countP (connectsPair start (start + (i : ℤ))) = 1 :=
          hf.1.2.2.2.2.2 i hi1 hi2
        have hrest : ((rest.map (fun s => s.doors)).flatten).countP
            (connectsPair start (start + (i : ℤ))) = 0 := by
          rw [List.countP_eq_zero]
          intro d hdm
          rw [List.mem_flatten] at hdm
          obtain ⟨ds, hds, hdd⟩ := hdm
          rw [List.mem_map] at hds
          obtain ⟨s', hs', rfl⟩ := hds
          have hlb := storiesFacts_doors_lb rest (start + (sl.rooms.length : ℤ))
            hf.2 s' hs' d hdd
          simp only [connectsPair, decide_eq_true_eq]
          push_neg
          constructor
          · intro hc
            omega
          · intro hc
            omega
        rw [hhd, hrest]
      · have hids_lb : ∀ j : ℕ, j < sl.rooms.length →
            start + (hd.rooms.length : ℤ) ≤ (sl.rooms.getD j default).id :=
          fun j hj => storiesFacts_ids_lb rest (start + (hd.rooms.length : ℤ))
            hf.2 sl hsl' j hj
        have hhd0 : hd.doors.countP
            (connectsPair ((sl.rooms.getD 0 default).id)
              ((sl.rooms.getD i default).id)) = 0 := by
          rw [List.countP_eq_zero]
          intro d hdd
          have h1 := hids_lb 0 (by omega)
          have h2 := hids_lb i hi2
          obtain ⟨k, hk, hc | hc⟩ := hf.1.2.2.2.2.1 d hdd <;>
          · simp only [connectsPair, hc, decide_eq_true_eq]
            push_neg
            constructor
            · intro hcc
              omega
            · intro hcc
              omega
        rw [hhd0]
        have := ih (start + (hd.rooms.length : ℤ)) (by positivity) hf.2 sl hsl' i hi1 hi2
        omega

/-- Each story contributes exactly one main-entrance door to the
concatenated doors list. -/
theorem stories_main_count :
    ∀ (L : List StoryLayout) (start : ℤ), StoriesFacts start L →
    ((L.map (fun s => s.doors)).flatten).countP
      (fun d => d.type == some "main_entrance") = L.length := by
  intro L
  induction L with
  | nil => intro start _; rfl
  | cons hd rest ih =>
      intro start hf
      simp only [List.map_cons, List.flatten_cons, List.countP_append,
        List.length_cons]
      rw [hf.1.2.2.2.1, ih (start + (hd.rooms.length : ℤ)) hf.2]
      omega

/-- Across a chained list of stories, the concatenated rooms list
carries consecutive ids from the chain's starting id. -/
theorem stories_flat_ids :
    ∀ (L : List StoryLayout) (start : ℤ), StoriesFacts start L →
    ∀ k : ℕ, k < ((L.map (fun s : StoryLayout => s.rooms)).flatten).length →
    (((L.map (fun s : StoryLayout => s.rooms)).flatten).getD k default).id =
      start + (k : ℤ) := by
  intro L
  induction L with
  | nil => intro start _ k hk; simp at hk
  | cons hd rest ih =>
      intro start hf k hk
      simp only [List.map_cons, List.flatten_cons] at hk ⊢
      by_cases hcase : k < hd.rooms.length
      · rw [List.getD_append _ _ _ _ hcase]
        exact hf.1.2.1 k hcase
      · push_neg at hcase
        rw [List.getD_append_right _ _ _ _ hcase]
        have hk' : k - hd.rooms.length <
            ((rest.map (fun s => s.rooms)).flatten).length := by
          rw [List.length_append] at hk
          omega
        rw [ih (start + (hd.rooms.length : ℤ)) hf.2 (k - hd.rooms.length) hk']
        have : ((k - hd.rooms.length : ℕ) : ℤ) = (k : ℤ) - (hd.rooms.length : ℤ) := by
          omega
        rw [this]
        ring

/-- When every processed story has a non-empty room list, the per-story
loop produces exactly one story layout per story. -/
theorem genStoriesAux_length (byStory : Assign) (tw tl : ℚ) (gs : ℤ) :
    ∀ (n story : ℕ) (start : ℤ) (r : Rng), 1 ≤ story →
    (∀ k : ℕ, k < n → byStory.getD (story - 1 + k) [] ≠ []) →
    (genStoriesAux byStory tw tl gs n story start r).1.length = n := by
  intro n
  induction n with
  | zero => intro story start r _ _; rfl
  | succ m ih =>
      intro story start r hstory hne
      simp only [genStoriesAux]
      split
      · rename_i hempty
        exact absurd hempty (by simpa using hne 0 (by omega))
      · simp only [List.length_cons]
        rw [ih (story + 1) _ _ (by omega) ?_]
        intro k hk
        have := hne (k + 1) (by omega)
        have harith : story - 1 + (k + 1) = story + 1 - 1 + k := by omega
        rwa [harith] at this

/-- `rooms_by_story[story].append(room)` preserves the story count. -/
theorem appendAt_length (a : Assign) (story : ℕ) (room : Room) :
    (appendAt a story room).length = a.length := by
  simp [appendAt]

/-- `extend` preserves the story count. -/
theorem appendAll_length (story : ℕ) :
    ∀ (l : List Room) (a : Assign), (appendAll a story l).length = a.length := by
  intro l
  induction l with
  | nil => intro a; rfl
  | cons x rest ih => intro a; rw [appendAll, ih, appendAt_length]

/-- The bounded move loop preserves the story count. -/
theorem moveN_length :
    ∀ (n : ℕ) (a : Assign) (story : ℕ) (xs : List Room),
    (moveN n a story xs).1.length = a.length := by
  intro n
  induction n with
  | zero => intro a story xs; rfl
  | succ m ih =>
      intro a story xs
      cases xs with
      | nil => rfl
      | cons x rest => rw [moveN, ih, appendAt_length]

/-- The per-story distribution loop preserves the story count. -/
theorem distLoop_length :
    ∀ (n story : ℕ) (a : Assign) (beds baths : List Room) (bpf baf : ℕ),
    (distLoop n story a beds baths bpf baf).1.length = a.length := by
  intro n
  induction n with
  | zero => intro story a beds baths bpf baf; rfl
  | succ m ih =>
      intro story a beds baths bpf baf
      rw [distLoop, ih, moveN_length, moveN_length]

/-- The remainder loop preserves the story count. -/
theorem remLoop_length :
    ∀ (n story : ℕ) (a : Assign) (beds baths : List Room),
    (remLoop n story a beds baths).1.length = a.length := by
  intro n
  induction n with
  | zero => intro story a beds baths; rfl
  | succ m ih =>
      intro story a beds baths
      cases beds with
      | nil =>
          cases baths with
          | nil => simp [remLoop, ih]
          | cons c cs => simp [remLoop, ih, appendAt_length]
      | cons b bs =>
          cases baths with
          | nil => simp [remLoop, ih, appendAt_length]
          | cons c cs => simp [remLoop, ih, appendAt_length]

/-- The greedy other-rooms loop preserves the story count. -/
theorem addOthers_length (stories : ℕ) :
    ∀ (l : List Room) (a : Assign), (addOthers stories l a).length = a.length := by
  intro l
  induction l with
  | nil => intro a; rfl
  | cons x rest ih => intro a; rw [addOthers, ih, appendAt_length]

/-- The hallway padding preserves the story count. -/
theorem padAssign_length (a : Assign) : (padAssign a).length = a.length := by
  simp [padAssign]

/-- The bedroom pull-back preserves the story count. -/
theorem pullBack_length (a : Assign) (beds baths : List Room) (stories : ℕ) :
    (pullBack a beds baths stories).1.length = a.length := by
  unfold pullBack
  split
  · cases beds with
    | nil => rfl
    | cons b bs =>
        cases baths with
        | nil => simp [appendAt_length]
        | cons c cs => simp [appendAt_length]
  · rfl

/-- The distributor returns one room list per story. -/
theorem distribute_length (rooms : List Room) (stories : ℕ) :
    (distribute_rooms_by_story rooms stories).length = stories := by
  simp only [distribute_rooms_by_story]
  split
  · rw [padAssign_length, appendAll_length, appendAll_length, appendAll_length,
      appendAll_length, List.length_replicate]
  · rw [padAssign_length, addOthers_length, remLoop_length, distLoop_length,
      pullBack_length, appendAll_length, List.length_replicate]

/-- Every story list produced by the distributor is non-empty. -/
theorem padAssign_nonempty (a : Assign) : ∀ l ∈ padAssign a, l ≠ [] := by
  intro l hl
  rw [padAssign, List.mem_map] at hl
  obtain ⟨l0, _, rfl⟩ := hl
  split
  · simp
  · assumption

/-- Every story list produced by the distributor is non-empty. -/
theorem distribute_nonempty (rooms : List Room) (stories : ℕ) :
    ∀ l ∈ distribute_rooms_by_story rooms stories, l ≠ [] := by
  simp only [distribute_rooms_by_story]
  split
  · exact padAssign_nonempty _
  · exact padAssign_nonempty _

/-- For a non-empty input, the layout's doors are the concatenation of
the per-story doors. -/
theorem generate_layout_doors_eq (rooms : List Room) (ps : PlotSize) (n : ℕ)
    (r : Rng) (h : rooms ≠ []) :
    (generate_layout rooms ps n r).doors =
      ((storyLayoutsOf rooms ps n r).map (fun s : StoryLayout => s.doors)).flatten := by
  simp [generate_layout, h]

/-- For a non-empty input, the layout's rooms are the concatenation of
the per-story rooms. -/
theorem generate_layout_rooms_eq (rooms : List Room) (ps : PlotSize) (n : ℕ)
    (r : Rng) (h : rooms ≠ []) :
    (generate_layout rooms ps n r).rooms =
      ((storyLayoutsOf rooms ps n r).map (fun s : StoryLayout => s.rooms)).flatten := by
  simp [generate_layout, h]

/-- The per-story layouts of any run satisfy the chained story facts
from id 0. -/
theorem storyLayoutsOf_facts (rooms : List Room) (ps : PlotSize) (n : ℕ)
    (r : Rng) : StoriesFacts 0 (storyLayoutsOf rooms ps n r) := by
  simp only [storyLayoutsOf]
  exact genStoriesAux_facts _ _ _ _ n 1 0 r le_rfl

/-- With a non-empty input, every story 1..N receives a non-empty room
list, so exactly N story layouts are generated. -/
theorem storyLayoutsOf_length (rooms : List Room) (ps : PlotSize) (n : ℕ)
    (r : Rng) : (storyLayoutsOf rooms ps n r).length = n := by
  simp only [storyLayoutsOf]
  apply genStoriesAux_length _ _ _ _ n 1 _ r (by omega)
  intro k hk
  have hlen : (distribute_rooms_by_story rooms n).length = n :=
    distribute_length rooms n
  have hklen : 1 - 1 + k < (distribute_rooms_by_story rooms n).length := by omega
  rw [List.getD_eq_getElem _ _ hklen]
  exact distribute_nonempty rooms n _ (List.getElem_mem hklen)

/-- C1 (amended): for every non-empty input room list, every plot size,
every stories count `N ≥ 1` and every draw stream, the layout contains
exactly `N` doors of type `"main_entrance"` — one per floor.  The
short-circuit after the first successful main-door assignment operates
within a single floor only. -/
theorem C1_main_doors (rooms : List Room) (ps : PlotSize) (n : ℕ) (r : Rng)
    (h1 : rooms ≠ []) (h2 : 1 ≤ n) :
    (generate_layout rooms ps n r).doors.countP
      (fun d => d.type == some "main_entrance") = n := by
  rw [generate_layout_doors_eq rooms ps n r h1,
    stories_main_count _ 0 (storyLayoutsOf_facts rooms ps n r),
    storyLayoutsOf_length rooms ps n r]

/-- Witness for `C1_main_doors` at a concrete input: one story, one
main entrance. -/
theorem C1_main_doors_witness :
    ([(⟨"bedroom"⟩ : Room)] ≠ [] ∧ 1 ≤ 1) ∧
    (generate_layout [⟨"bedroom"⟩] ps15 1 rng0).doors.countP
      (fun d => d.type == some "main_entrance") = 1 :=
  ⟨⟨by decide, le_rfl⟩, C1_main_doors [⟨"bedroom"⟩] ps15 1 rng0 (by decide) le_rfl⟩

/-- C3: for every run, every generated floor and every non-corridor
room on it, the full layout's doors list contains exactly one door
whose `connects` pair consists of that floor's corridor id and that
room's id (the door-position computation is total, so no connecting
door is omitted, and no other floor contributes a matching pair). -/
theorem C3_one_door_per_room (rooms : List Room) (ps : PlotSize) (n : ℕ)
    (r : Rng) (h1 : rooms ≠ []) :
    ∀ sl ∈ storyLayoutsOf rooms ps n r, ∀ i : ℕ, 1 ≤ i → i < sl.rooms.length →
    (generate_layout rooms ps n r).doors.countP
      (connectsPair ((sl.rooms.getD 0 default).id)
        ((sl.rooms.getD i default).id)) = 1 := by
  intro sl hsl i hi1 hi2
  rw [generate_layout_doors_eq rooms ps n r h1]
  exact stories_pair_count _ 0 le_rfl (storyLayoutsOf_facts rooms ps n r)
    sl hsl i hi1 hi2

instance : Inhabited StoryLayout := ⟨⟨[], [], []⟩⟩

/-- Witness for `C3_one_door_per_room` at a concrete input: the single
bedroom's connecting door. -/
theorem C3_one_door_per_room_witness :
    (([(⟨"bedroom"⟩ : Room)] ≠ []) ∧
      (storyLayoutsOf [⟨"bedroom"⟩] ps15 1 rng0).getD 0 default ∈
        storyLayoutsOf [⟨"bedroom"⟩] ps15 1 rng0 ∧
      (1 : ℕ) ≤ 1 ∧
      1 < ((storyLayoutsOf [⟨"bedroom"⟩] ps15 1 rng0).getD 0 default).rooms.length) ∧
    (generate_layout [⟨"bedroom"⟩] ps15 1 rng0).doors.countP
      (connectsPair
        ((((storyLayoutsOf [⟨"bedroom"⟩] ps15 1 rng0).getD 0
          default).rooms.getD 0 default).id)
        ((((storyLayoutsOf [⟨"bedroom"⟩] ps15 1 rng0).getD 0
          default).rooms.getD 1 default).id)) = 1 :=
  ⟨⟨by decide, by decide, le_rfl, by decide⟩,
    C3_one_door_per_room [⟨"bedroom"⟩] ps15 1 rng0 (by decide) _ (by decide)
      1 le_rfl (by decide)⟩

/-- A pointwise property of rooms holding on every assigned list. -/
def RoomsOK (P : Room → Prop) (a : Assign) : Prop :=
  ∀ l ∈ a, ∀ rm ∈ l, P rm

/-- Appending one good room preserves `RoomsOK`. -/
theorem appendAt_ok (P : Room → Prop) (a : Assign) (story : ℕ) (room : Room)
    (ha : RoomsOK P a) (hr : P room) : RoomsOK P (appendAt a story room) := by
  intro l hl rm hrm
  rcases List.mem_or_eq_of_mem_set hl with hl' | rfl
  · exact ha l hl' rm hrm
  · rcases List.mem_append.mp hrm with h | h
    · by_cases hlen : story - 1 < a.length
      · rw [List.getD_eq_getElem _ _ hlen] at h
        exact ha _ (List.getElem_mem hlen) rm h
      · rw [List.getD_eq_default _ _ (by omega)] at h
        simp at h
    · simp only [List.mem_singleton] at h
      subst h
      exact hr

/-- Extending with good rooms preserves `RoomsOK`. -/
theorem appendAll_ok (P : Room → Prop) (story : ℕ) :
    ∀ (l : List Room) (a : Assign), RoomsOK P a → (∀ rm ∈ l, P rm) →
    RoomsOK P (appendAll a story l) := by
  intro l
  induction l with
  | nil => intro a ha _; exact ha
  | cons x rest ih =>
      intro a ha hl
      rw [appendAll]
      exact ih _ (appendAt_ok P a story x ha (hl x (by simp)))
        (fun rm hrm => hl rm (by simp [hrm]))

/-- The bounded move loop preserves `RoomsOK` and moves only good
rooms. -/
theorem moveN_ok (P : Room → Prop) :
    ∀ (n : ℕ) (a : Assign) (story : ℕ) (xs : List Room), RoomsOK P a →
    (∀ x ∈ xs, P x) →
    RoomsOK P (moveN n a story xs).1 ∧ (∀ x ∈ (moveN n a story xs).2, P x) := by
  intro n
  induction n with
  | zero => intro a story xs ha hxs; exact ⟨ha, hxs⟩
  | succ m ih =>
      intro a story xs ha hxs
      cases xs with
      | nil => exact ⟨ha, by simp [moveN]⟩
      | cons x rest =>
          rw [moveN]
          exact ih _ story rest (appendAt_ok P a story x ha (hxs x (by simp)))
            (fun y hy => hxs y (by simp [hy]))

/-- The per-story distribution loop preserves `RoomsOK`. -/
theorem distLoop_ok (P : Room → Prop) :
    ∀ (n story : ℕ) (a : Assign) (beds baths : List Room) (bpf baf : ℕ),
    RoomsOK P a → (∀ x ∈ beds, P x) → (∀ x ∈ baths, P x) →
    RoomsOK P (distLoop n story a beds baths bpf baf).1 ∧
    (∀ x ∈ (distLoop n story a beds baths bpf baf).2.1, P x) ∧
    (∀ x ∈ (distLoop n story a beds baths bpf baf).2.2, P x) := by
  intro n
  induction n with
  | zero => intro story a beds baths bpf baf ha hb hc; exact ⟨ha, hb, hc⟩
  | succ m ih =>
      intro story a beds baths bpf baf ha hb hc
      rw [distLoop]
      obtain ⟨ha1, hb1⟩ := moveN_ok P (min bpf beds.length) a story beds ha hb
      obtain ⟨ha2, hc2⟩ := moveN_ok P (min baf baths.length) _ story baths ha1 hc
      exact ih (story + 1) _ _ _ bpf baf ha2 hb1 hc2

/-- The remainder loop preserves `RoomsOK`. -/
theorem remLoop_ok (P : Room → Prop) :
    ∀ (n story : ℕ) (a : Assign) (beds baths : List Room),
    RoomsOK P a → (∀ x ∈ beds, P x) → (∀ x ∈ baths, P x) →
    RoomsOK P (remLoop n story a beds baths).1 := by
  intro n
  induction n with
  | zero => intro story a beds baths ha _ _; exact ha
  | succ m ih =>
      intro story a beds baths ha hb hc
      cases beds with
      | nil =>
          cases baths with
          | nil => exact ih (story + 1) a [] [] ha (by simp) (by simp)
          | cons c cs =>
              exact ih (story + 1) _ [] cs
                (appendAt_ok P a story c ha (hc c (by simp)))
                (by simp) (fun x hx => hc x (by simp [hx]))
      | cons b bs =>
          cases baths with
          | nil =>
              exact ih (story + 1) _ bs []
                (appendAt_ok P a story b ha (hb b (by simp)))
                (fun x hx => hb x (by simp [hx])) (by simp)
          | cons c cs =>
              exact ih (story + 1) _ bs cs
                (appendAt_ok P (appendAt a story b) story c
                  (appendAt_ok P a story b ha (hb b (by simp)))
                  (hc c (by simp)))
                (fun x hx => hb x (by simp [hx]))
                (fun x hx => hc x (by simp [hx]))

/-- The greedy other-rooms loop preserves `RoomsOK`. -/
theorem addOthers_ok (P : Room → Prop) (stories : ℕ) :
    ∀ (l : List Room) (a : Assign), RoomsOK P a → (∀ x ∈ l, P x) →
    RoomsOK P (addOthers stories l a) := by
  intro l
  induction l with
  | nil => intro a ha _; exact ha
  | cons x rest ih =>
      intro a ha hl
      rw [addOthers]
      exact ih _ (appendAt_ok P a _ x ha (hl x (by simp)))
        (fun y hy => hl y (by simp [hy]))

/-- Hallway padding preserves `RoomsOK` when the hallway room is good. -/
theorem padAssign_ok (P : Room → Prop) (a : Assign) (ha : RoomsOK P a)
    (hh : P ⟨"hallway"⟩) : RoomsOK P (padAssign a) := by
  intro l hl rm hrm
  rw [padAssign, List.mem_map] at hl
  obtain ⟨l0, hl0, rfl⟩ := hl
  split at hrm
  · simp only [List.mem_singleton] at hrm
    subst hrm
    exact hh
  · exact ha l0 hl0 rm hrm

/-- The bedroom pull-back preserves `RoomsOK` and keeps its pools good. -/
theorem pullBack_ok (P : Room → Prop) (a : Assign) (beds baths : List Room)
    (stories : ℕ) (ha : RoomsOK P a) (hb : ∀ x ∈ beds, P x)
    (hc : ∀ x ∈ baths, P x) :
    RoomsOK P (pullBack a beds baths stories).1 ∧
    (∀ x ∈ (pullBack a beds baths stories).2.1, P x) ∧
    (∀ x ∈ (pullBack a beds baths stories).2.2, P x) := by
  unfold pullBack
  split
  · cases beds with
    | nil => exact ⟨ha, by simp, hc⟩
    | cons b bs =>
        cases baths with
        | nil =>
            exact ⟨appendAt_ok P a 1 b ha (hb b (by simp)),
              fun x hx => hb x (by simp [hx]), by simp⟩
        | cons c cs =>
            exact ⟨appendAt_ok P _ 1 c
                (appendAt_ok P a 1 b ha (hb b (by simp))) (hc c (by simp)),
              fun x hx => hb x (by simp [hx]),
              fun x hx => hc x (by simp [hx])⟩
  · exact ⟨ha, hb, hc⟩

/-- Every room the distributor assigns comes from the input list or is
the synthetic hallway. -/
theorem distribute_ok (P : Room → Prop) (rooms : List Room) (stories : ℕ)
    (hP : ∀ rm ∈ rooms, P rm) (hh : P ⟨"hallway"⟩) :
    RoomsOK P (distribute_rooms_by_story rooms stories) := by
  have hfilter : ∀ (q : Room → Bool), ∀ x ∈ rooms.filter q, P x :=
    fun q x hx => hP x (List.mem_filter.mp hx).1
  have hrepl : RoomsOK P (List.replicate stories ([] : List Room)) := by
    intro l hl rm hrm
    rw [List.eq_of_mem_replicate hl] at hrm
    simp at hrm
  simp only [distribute_rooms_by_story]
  split
  · exact padAssign_ok P _
      (appendAll_ok P 1 _ _
        (appendAll_ok P 1 _ _
          (appendAll_ok P 1 _ _
            (appendAll_ok P 1 _ _ hrepl (hfilter _)) (hfilter _)) (hfilter _))
        (hfilter _)) hh
  · have ha1 : RoomsOK P (appendAll (List.replicate stories []) 1
        (rooms.filter fun r => storyCategory (pyLower r.type) == 0)) :=
      appendAll_ok P 1 _ _ hrepl (hfilter _)
    have hpb := pullBack_ok P _
      (rooms.filter fun r => storyCategory (pyLower r.type) == 1)
      (rooms.filter fun r => storyCategory (pyLower r.type) == 2)
      stories ha1 (hfilter _) (hfilter _)
    obtain ⟨hpb1, hpb2, hpb3⟩ := hpb
    obtain ⟨hd1, hd2, hd3⟩ := distLoop_ok P (stories - 1) 2 _ _ _
      (max 1 ((rooms.filter fun r => storyCategory (pyLower r.type) == 1).length
        / (stories - 1)))
      (max 1 ((rooms.filter fun r => storyCategory (pyLower r.type) == 2).length
        / (stories - 1)))
      hpb1 hpb2 hpb3
    have hr1 := remLoop_ok P (stories - 1) 2 _ _ _ hd1 hd2 hd3
    exact padAssign_ok P _ (addOthers_ok P stories _ _ hr1 (hfilter _)) hh

/-- Every room entry built from the placements carries a placement's
room type. -/
theorem buildRooms_types (sx sy : ℚ) (st : ℕ) :
    ∀ (plcs : List Plc) (i : ℤ), ∀ ro ∈ buildRooms sx sy st plcs i,
    ∃ p ∈ plcs, ro.type = p.room.type := by
  intro plcs
  induction plcs with
  | nil => intro i ro hro; simp [buildRooms] at hro
  | cons p rest ih =>
      intro i ro hro
      rw [buildRooms, List.mem_cons] at hro
      rcases hro with rfl | hro
      · exact ⟨p, by simp, rfl⟩
      · obtain ⟨q, hq, ht⟩ := ih (i + 1) ro hro
        exact ⟨q, by simp [hq], ht⟩

/-- When no requested room has type `"corridor"`, a story's room list
contains exactly one corridor-typed room: the spine placed by
`_place_corridor`. -/
theorem generate_story_layout_corridor_count (rooms : List Room) (tw tl : ℚ)
    (story : ℕ) (start gs : ℤ) (r : Rng)
    (h : ∀ rm ∈ rooms, rm.type ≠ "corridor") :
    (generate_story_layout rooms tw tl story start gs r).1.rooms.countP
      (fun ro => ro.type == "corridor") = 1 := by
  rw [generate_story_layout_rooms]
  rw [List.countP_cons]
  have htail : (buildRooms (tw / (gs : ℚ)) (tl / (gs : ℚ)) story
      (genStoryPlacements rooms gs r).2.plcs (start + 1)).countP
      (fun ro => ro.type == "corridor") = 0 := by
    rw [List.countP_eq_zero]
    intro ro hro
    obtain ⟨p, hp, ht⟩ := buildRooms_types _ _ story _ (start + 1) ro hro
    obtain ⟨hinv, _⟩ := genStoryPlacements_inv rooms gs r
    have hpr : p.room ∈ rooms := hinv.2.2.2.2.2 p hp
    have : ro.type ≠ "corridor" := by
      rw [ht]
      exact h p.room hpr
    simp [this]
  rw [htail]
  simp

/-- When no room in the story assignment has type `"corridor"`, every
generated story layout has exactly one corridor-typed room. -/
theorem genStoriesAux_corridor_count (byStory : Assign) (tw tl : ℚ) (gs : ℤ)
    (hby : ∀ l ∈ byStory, ∀ rm ∈ l, rm.type ≠ "corridor") :
    ∀ (n story : ℕ) (start : ℤ) (r : Rng),
    ∀ sl ∈ (genStoriesAux byStory tw tl gs n story start r).1,
    sl.rooms.countP (fun ro => ro.type == "corridor") = 1 := by
  intro n
  induction n with
  | zero => intro story start r sl hsl; simp [genStoriesAux] at hsl
  | succ m ih =>
      intro story start r sl hsl
      simp only [genStoriesAux] at hsl
      split at hsl
      · exact ih (story + 1) start r sl hsl
      · rename_i hne
        rw [List.mem_cons] at hsl
        rcases hsl with rfl | hsl
        · apply generate_story_layout_corridor_count
          intro rm hrm
          have hidx : story - 1 < byStory.length := by
            by_contra hcon
            push_neg at hcon
            rw [List.getD_eq_default _ _ hcon] at hne
            exact hne rfl
          rw [List.getD_eq_getElem _ _ hidx] at hrm
          exact hby _ (List.getElem_mem hidx) rm hrm
        · exact ih (story + 1) _ _ sl hsl

/-- Every member of a chained story list satisfies the per-story facts
for some starting id. -/
theorem storiesFacts_mem :
    ∀ (L : List StoryLayout) (start : ℤ), StoriesFacts start L →
    ∀ sl ∈ L, ∃ s : ℤ, StoryFacts s sl := by
  intro L
  induction L with
  | nil => intro start _ sl hsl; simp at hsl
  | cons hd rest ih =>
      intro start hf sl hsl
      rcases List.mem_cons.mp hsl with rfl | hsl'
      · exact ⟨start, hf.1⟩
      · exact ih _ hf.2 sl hsl'

/-- C4 (amended): for every non-empty input room list with no
corridor-typed request, room ids across the whole multi-floor layout
are exactly `0, 1, 2, …` in order (a monotonic counter carried across
floors, hence unique), and each generated floor has exactly one room of
type `"corridor"`, whose id is the smallest id on that floor. -/
theorem C4_ids_and_corridor (rooms : List Room) (ps : PlotSize) (n : ℕ)
    (r : Rng) (h1 : rooms ≠ [])
    (h3 : ∀ rm ∈ rooms, rm.type ≠ "corridor") :
    (∀ k : ℕ, k < (generate_layout rooms ps n r).rooms.length →
      ((generate_layout rooms ps n r).rooms.getD k default).id = (k : ℤ)) ∧
    (∀ sl ∈ storyLayoutsOf rooms ps n r,
      sl.rooms.countP (fun ro => ro.type == "corridor") = 1 ∧
      ∃ c ∈ sl.rooms, c.type = "corridor" ∧ ∀ q ∈ sl.rooms, c.id ≤ q.id) := by
  constructor
  · intro k hk
    rw [generate_layout_rooms_eq rooms ps n r h1] at hk ⊢
    have := stories_flat_ids (storyLayoutsOf rooms ps n r) 0
      (storyLayoutsOf_facts rooms ps n r) k hk
    rw [this]
    ring
  · intro sl hsl
    constructor
    · have hby : ∀ l ∈ distribute_rooms_by_story rooms n, ∀ rm ∈ l,
          rm.type ≠ "corridor" :=
        distribute_ok (fun rm => rm.type ≠ "corridor") rooms n h3 (by decide)
      simp only [storyLayoutsOf] at hsl
      exact genStoriesAux_corridor_count _ _ _ _ hby n 1 0 r sl hsl
    · obtain ⟨s, hfacts⟩ := storiesFacts_mem _ 0
        (storyLayoutsOf_facts rooms ps n r) sl hsl
      have h0len : 0 < sl.rooms.length := hfacts.1
      refine ⟨sl.rooms.getD 0 default, ?_, hfacts.2.2.1, ?_⟩
      · rw [List.getD_eq_getElem _ _ h0len]
        exact List.getElem_mem h0len
      · intro q hq
        obtain ⟨j, hj, rfl⟩ := List.mem_iff_getElem.mp hq
        have hq_id : (sl.rooms.getD j default).id = s + (j : ℤ) :=
          hfacts.2.1 j hj
        have hc_id : (sl.rooms.getD 0 default).id = s + ((0 : ℕ) : ℤ) :=
          hfacts.2.1 0 h0len
        rw [List.getD_eq_getElem _ _ hj] at hq_id
        rw [hq_id, hc_id]
        simp

/-- Witness for `C4_ids_and_corridor` at a concrete input: the first
room of a one-bedroom layout has id 0. -/
theorem C4_ids_and_corridor_witness :
    (([(⟨"bedroom"⟩ : Room)] ≠ []) ∧
      (∀ rm ∈ [(⟨"bedroom"⟩ : Room)], rm.type ≠ "corridor") ∧
      0 < (generate_layout [⟨"bedroom"⟩] ps15 1 rng0).rooms.length) ∧
    ((generate_layout [⟨"bedroom"⟩] ps15 1 rng0).rooms.getD 0 default).id =
      ((0 : ℕ) : ℤ) :=
  ⟨⟨by decide, by decide, by decide⟩,
    (C4_ids_and_corridor [⟨"bedroom"⟩] ps15 1 rng0 (by decide)
      (by decide)).1 0 (by decide)⟩
